import Mathlib

/-!
Verification of the server core of a real-time collaborative conversation
platform, against its natural-language specification.  The Rust sources are
shallowly embedded: pure functions become Lean functions, the stateful
components (the relational store and the in-memory delegation engine) become
explicit state-passing functions on state records, machine integers become
natural numbers with explicit reductions modulo 256 at the points where the
source wraps, and fallible operations return an Except value.

The development covers:
  * the hand-rolled base64 wire codec of websocket.rs,
  * the store's block-lineage operations (fork_block, rerun_block),
  * the streaming-response pipeline's block status writes,
  * the upstream SSE stream parser and event interpretation of opencode.rs,
  * the delegation engine of delegation/manager.rs, and
  * the frame behaviour of unregister_participant.
-/

set_option maxHeartbeats 1000000
set_option maxRecDepth 100000

deriving instance DecidableEq for Except

-- ============================================================
-- Definitions
-- ============================================================

namespace Wire

/-- The base64 alphabet of the hand-rolled codec in websocket.rs. -/
def B64_ALPHABET : List Char :=
  "ABCDEFGHIJKLMNOPQRSTUVWXYZabcdefghijklmnopqrstuvwxyz0123456789+/".toList

/-- Indexing into the alphabet (indices are always < 64 at call sites). -/
def alphaChar (i : Nat) : Char := B64_ALPHABET.getD i '?'

/-- One 3-byte (or shorter, final) chunk of base64_encode.
The source reads b1 and b2 with an unwrap_or(0) default and pads with
the character = when the chunk is shorter than 3 bytes.  Bytes are
naturals < 256. -/
def encodeChunk (chunk : List Nat) : List Char :=
  match chunk with
  | [] => []
  | b0 :: t =>
    let b1 := t.getD 0 0
    let b2 := t.getD 1 0
    [alphaChar (b0 >>> 2), alphaChar (((b0 &&& 0x03) <<< 4) ||| (b1 >>> 4))]
    ++ (if t.length > 0 then [alphaChar (((b1 &&& 0x0f) <<< 2) ||| (b2 >>> 6))] else ['='])
    ++ (if t.length > 1 then [alphaChar (b2 &&& 0x3f)] else ['='])

/-- base64_encode of websocket.rs: iterate over chunks of 3 bytes. -/
def base64_encode : List Nat → List Char
  | b0 :: b1 :: b2 :: rest => encodeChunk [b0, b1, b2] ++ base64_encode rest
  | [] => []
  | chunk => encodeChunk chunk

/-- decode_char of websocket.rs: the padding character maps to 0, any
alphabet character to its position, anything else is an error. -/
def decode_char (c : Char) : Except String Nat :=
  if c = '=' then Except.ok 0
  else
    match B64_ALPHABET.findIdx? (fun x => x = c) with
    | some p => Except.ok p
    | none => Except.error ("Invalid base64 character: " ++ c.toString)

/-- Rust char::is_whitespace (the Unicode White_Space property),
used by str::trim. -/
def isRustWs (c : Char) : Bool :=
  c = ' ' || c = '\t' || c = '\n' || c = '\r' ||
  c.val = 0x0B || c.val = 0x0C || c.val = 0x85 || c.val = 0xA0 ||
  c.val = 0x1680 || (0x2000 ≤ c.val && c.val ≤ 0x200A) ||
  c.val = 0x2028 || c.val = 0x2029 || c.val = 0x202F || c.val = 0x205F ||
  c.val = 0x3000

/-- str::trim: drop Unicode whitespace from both ends. -/
def rustTrim (l : List Char) : List Char :=
  ((l.dropWhile isRustWs).reverse.dropWhile isRustWs).reverse

/-- The 4-character chunk loop of base64_decode.  The source pushes the
first output byte unconditionally and the second and third only when the
corresponding input character is not the padding =.  The u8 shifts of the
source truncate to 8 bits, modelled by an explicit reduction mod 256. -/
def decodeChunks : List Char → Except String (List Nat)
  | [] => Except.ok []
  | c0 :: c1 :: c2 :: c3 :: rest => do
    let b0 ← decode_char c0
    let b1 ← decode_char c1
    let b2 ← decode_char c2
    let b3 ← decode_char c3
    let out :=
      [((b0 <<< 2) % 256) ||| (b1 >>> 4)]
      ++ (if c2 ≠ '=' then [((b1 <<< 4) % 256) ||| (b2 >>> 2)] else [])
      ++ (if c3 ≠ '=' then [((b2 <<< 6) % 256) ||| b3] else [])
    let tail ← decodeChunks rest
    Except.ok (out ++ tail)
  | _ => Except.error "Invalid base64 length"

/-- base64_decode of websocket.rs: trim, accept empty input, strip newline
and carriage-return bytes, require a length that is a multiple of 4, then
decode chunk by chunk. -/
def base64_decode (data : List Char) : Except String (List Nat) :=
  let data := rustTrim data
  if data.isEmpty then Except.ok []
  else
    let bytes := data.filter (fun b => b ≠ '\n' && b ≠ '\r')
    if bytes.length % 4 ≠ 0 then Except.error "Invalid base64 length"
    else decodeChunks bytes

end Wire

namespace Store

/-- models.rs BlockType. -/
inductive BlockType
  | user
  | assistant
deriving DecidableEq

/-- models.rs BlockStatus. -/
inductive BlockStatus
  | pending
  | streaming
  | complete
  | error
deriving DecidableEq

/-- models.rs Block.  Identifiers and timestamps are naturals: ids are drawn
from a fresh-id supply (modelling Uuid::new_v4) and timestamps from a
monotone clock (modelling Utc::now). -/
structure Block where
  id : Nat
  journal_id : Nat
  block_type : BlockType
  content : String
  status : BlockStatus
  parent_id : Option Nat
  forked_from_id : Option Nat
  created_at : Nat
  updated_at : Nat
deriving DecidableEq

/-- models.rs Journal. -/
structure Journal where
  id : Nat
  title : String
  created_at : Nat
  updated_at : Nat
deriving DecidableEq

/-- error.rs AppError (the database payload is reduced to its message). -/
inductive AppError
  | database (msg : String)
  | openCode (msg : String)
  | notFound (msg : String)
  | badRequest (msg : String)
  | internal (msg : String)
deriving DecidableEq

/-- The two tables of store.rs.  Block rows are kept in insertion order;
every insertion stamps the row with the current clock value and bumps the
clock, so created_at is strictly increasing along the list and the SQL
ORDER BY created_at ASC returns rows in stored order. -/
structure StoreState where
  journals : List Journal
  blocks : List Block
  nextId : Nat
  clock : Nat
deriving DecidableEq

/-- The empty database. -/
def initStore : StoreState := { journals := [], blocks := [], nextId := 0, clock := 0 }

/-- Store::create_journal. -/
def create_journal (st : StoreState) (title : Option String) : Journal × StoreState :=
  let id := st.nextId
  let title := title.getD "Untitled"
  let now := st.clock
  let j : Journal := { id := id, title := title, created_at := now, updated_at := now }
  (j, { st with
        journals := st.journals ++ [j]
        nextId := st.nextId + 1
        clock := st.clock + 1 })

/-- Store::get_journal. -/
def get_journal (st : StoreState) (id : Nat) : Except AppError Journal :=
  match st.journals.find? (fun j => j.id = id) with
  | some j => Except.ok j
  | none => Except.error (AppError.notFound ("Journal " ++ toString id ++ " not found"))

/-- Store::create_block_with_lineage: inserts a block row (user blocks are
born complete, assistant blocks pending) and refreshes the parent
journal's update timestamp. -/
def create_block_with_lineage (st : StoreState) (journal_id : Nat)
    (block_type : BlockType) (content : String)
    (parent_id forked_from_id : Option Nat) : Block × StoreState :=
  let id := st.nextId
  let now := st.clock
  let status := match block_type with
    | BlockType.user => BlockStatus.complete
    | BlockType.assistant => BlockStatus.pending
  let b : Block :=
    { id := id
      journal_id := journal_id
      block_type := block_type
      content := content
      status := status
      parent_id := parent_id
      forked_from_id := forked_from_id
      created_at := now
      updated_at := now }
  (b, { st with
        blocks := st.blocks ++ [b]
        journals := st.journals.map (fun j =>
          if j.id = journal_id then { j with updated_at := now } else j)
        nextId := st.nextId + 1
        clock := st.clock + 1 })

/-- Store::create_block. -/
def create_block (st : StoreState) (journal_id : Nat) (block_type : BlockType)
    (content : String) : Block × StoreState :=
  create_block_with_lineage st journal_id block_type content none none

/-- Store::get_block. -/
def get_block (st : StoreState) (id : Nat) : Except AppError Block :=
  match st.blocks.find? (fun b => b.id = id) with
  | some b => Except.ok b
  | none => Except.error (AppError.notFound ("Block " ++ toString id ++ " not found"))

/-- Store::get_blocks_for_journal (ORDER BY created_at ASC; see StoreState). -/
def get_blocks_for_journal (st : StoreState) (journal_id : Nat) : List Block :=
  st.blocks.filter (fun b => b.journal_id = journal_id)

/-- Store::update_block_content. -/
def update_block_content (st : StoreState) (id : Nat) (content : String) : StoreState :=
  let now := st.clock
  { st with
    blocks := st.blocks.map (fun b =>
      if b.id = id then { b with content := content, updated_at := now } else b),
    clock := st.clock + 1 }

/-- Store::update_block_status.  No status-transition enforcement here
(the store layer performs a plain UPDATE). -/
def update_block_status (st : StoreState) (id : Nat) (status : BlockStatus) : StoreState :=
  let now := st.clock
  { st with
    blocks := st.blocks.map (fun b =>
      if b.id = id then { b with status := status, updated_at := now } else b),
    clock := st.clock + 1 }

/-- Store::fork_block: read the source block, then create a new user block
carrying the source's content with parent_id = forked_from_id = source id. -/
def fork_block (st : StoreState) (block_id : Nat) : Except AppError (Block × StoreState) := do
  let original ← get_block st block_id
  Except.ok (create_block_with_lineage st original.journal_id BlockType.user
    original.content (some block_id) (some block_id))

/-- Store::rerun_block: for a user source reuse its content; for an
assistant source find the latest user block of the journal created strictly
before the source, failing with not-found when none exists. -/
def rerun_block (st : StoreState) (block_id : Nat) : Except AppError (Block × StoreState) :=
  match get_block st block_id with
  | Except.error e => Except.error e
  | Except.ok original =>
    let sel : Except AppError (String × Nat) :=
      match original.block_type with
      | BlockType.user => Except.ok (original.content, block_id)
      | BlockType.assistant =>
        let blocks := get_blocks_for_journal st original.journal_id
        match blocks.reverse.find? (fun b =>
            decide (b.block_type = BlockType.user ∧ b.created_at < original.created_at)) with
        | none => Except.error (AppError.notFound "No preceding user block found")
        | some user_block => Except.ok (user_block.content, block_id)
    match sel with
    | Except.error e => Except.error e
    | Except.ok (content, parent_id) =>
      Except.ok (create_block_with_lineage st original.journal_id BlockType.user
        content (some parent_id) (some block_id))

/-- Store::get_forks. -/
def get_forks (st : StoreState) (block_id : Nat) : List Block :=
  st.blocks.filter (fun b => b.forked_from_id = some block_id)

/-- Store::get_children. -/
def get_children (st : StoreState) (block_id : Nat) : List Block :=
  st.blocks.filter (fun b => b.parent_id = some block_id)

/-- Block rows are stored with strictly increasing creation times; this
holds for every store reachable from initStore. -/
def StoreSorted (st : StoreState) : Prop :=
  st.blocks.Pairwise (fun a b => a.created_at < b.created_at)

instance (st : StoreState) : Decidable (StoreSorted st) := by
  unfold StoreSorted; infer_instance

/-- The concrete store of the fork/rerun scenarios: one journal (id 0)
holding the user block "ask" (id 1) and the assistant block "answer"
(id 2). -/
def c3State : StoreState :=
  let s1 := (create_journal initStore none).2
  let s2 := (create_block s1 0 BlockType.user "ask").2
  (create_block s2 0 BlockType.assistant "answer").2

/-- The user block of c3State. -/
def c3UserBlock : Block :=
  { id := 1, journal_id := 0, block_type := BlockType.user, content := "ask",
    status := BlockStatus.complete, parent_id := none, forked_from_id := none,
    created_at := 1, updated_at := 1 }

/-- The assistant block of c3State. -/
def c3AsstBlock : Block :=
  { id := 2, journal_id := 0, block_type := BlockType.assistant, content := "answer",
    status := BlockStatus.pending, parent_id := none, forked_from_id := none,
    created_at := 2, updated_at := 2 }

end Store

namespace Deleg

/-- crdt/participant.rs ParticipantKind. -/
inductive ParticipantKind
  | user
  | agent
  | observer
deriving DecidableEq

/-- capability.rs Capability. -/
inductive Capability
  | read
  | submit
  | fork
  | delegate
  | approve
  | admin
deriving DecidableEq

/-- capability.rs CapabilitySet (a HashSet, modelled as a duplicate-free
list; insertion order is never observed by the engine). -/
structure CapabilitySet where
  capabilities : List Capability
deriving DecidableEq

/-- CapabilitySet::has — membership honouring the Admin override. -/
def CapabilitySet.has (s : CapabilitySet) (cap : Capability) : Bool :=
  s.capabilities.contains Capability.admin || s.capabilities.contains cap

/-- CapabilitySet::add (HashSet::insert: no duplicates). -/
def CapabilitySet.add (s : CapabilitySet) (cap : Capability) : CapabilitySet :=
  if s.capabilities.contains cap then s
  else { capabilities := s.capabilities ++ [cap] }

/-- CapabilitySet::remove. -/
def CapabilitySet.del (s : CapabilitySet) (cap : Capability) : CapabilitySet :=
  { capabilities := s.capabilities.filter (fun c => c ≠ cap) }

/-- Capability::default_user. -/
def Capability.default_user : CapabilitySet :=
  { capabilities := [Capability.read, Capability.submit, Capability.fork,
      Capability.delegate, Capability.approve] }

/-- Capability::default_agent. -/
def Capability.default_agent : CapabilitySet :=
  { capabilities := [Capability.read, Capability.submit, Capability.fork,
      Capability.delegate] }

/-- Capability::default_observer. -/
def Capability.default_observer : CapabilitySet :=
  { capabilities := [Capability.read] }

/-- crdt/participant.rs Participant, reduced to the fields the delegation
engine reads (identity, display name, kind); the presence-only fields
(status, cursor, color, timestamps) are never read by delegation code. -/
structure Participant where
  id : Nat
  name : String
  kind : ParticipantKind
deriving DecidableEq

/-- delegation/participant.rs RegisteredParticipant. -/
structure RegisteredParticipant where
  participant : Participant
  capabilities : CapabilitySet
  accepting_work : Bool
  work_capacity : Nat
  registered_at : Nat
deriving DecidableEq

/-- RegisteredParticipant::new: default capabilities and capacity by kind. -/
def RegisteredParticipant.new (p : Participant) (now : Nat) : RegisteredParticipant :=
  let capabilities := match p.kind with
    | ParticipantKind.user => Capability.default_user
    | ParticipantKind.agent => Capability.default_agent
    | ParticipantKind.observer => Capability.default_observer
  let work_capacity := match p.kind with
    | ParticipantKind.user => 5
    | ParticipantKind.agent => 10
    | ParticipantKind.observer => 0
  { participant := p, capabilities := capabilities, accepting_work := true,
    work_capacity := work_capacity, registered_at := now }

/-- RegisteredParticipant::with_capabilities. -/
def RegisteredParticipant.with_capabilities (p : Participant) (capabilities : CapabilitySet)
    (now : Nat) : RegisteredParticipant :=
  let work_capacity := match p.kind with
    | ParticipantKind.user => 5
    | ParticipantKind.agent => 10
    | ParticipantKind.observer => 0
  { participant := p, capabilities := capabilities, accepting_work := true,
    work_capacity := work_capacity, registered_at := now }

def RegisteredParticipant.id (r : RegisteredParticipant) : Nat := r.participant.id

def RegisteredParticipant.name (r : RegisteredParticipant) : String := r.participant.name

def RegisteredParticipant.kind (r : RegisteredParticipant) : ParticipantKind :=
  r.participant.kind

def RegisteredParticipant.has_capability (r : RegisteredParticipant)
    (cap : Capability) : Bool :=
  r.capabilities.has cap

def RegisteredParticipant.can_delegate (r : RegisteredParticipant) : Bool :=
  r.has_capability Capability.delegate

def RegisteredParticipant.can_approve (r : RegisteredParticipant) : Bool :=
  r.has_capability Capability.approve

/-- RegisteredParticipant::can_receive_work: accepting_work ∧ capacity > 0. -/
def RegisteredParticipant.can_receive_work (r : RegisteredParticipant) : Bool :=
  r.accepting_work && decide (r.work_capacity > 0)

def RegisteredParticipant.set_accepting_work (r : RegisteredParticipant)
    (accepting : Bool) : RegisteredParticipant :=
  { r with accepting_work := accepting }

/-- work_item.rs WorkItemStatus. -/
inductive WorkItemStatus
  | pending
  | inProgress
  | awaitingApproval
  | approved
  | rejected
  | declined
  | cancelled
deriving DecidableEq

/-- WorkItemStatus::as_str. -/
def WorkItemStatus.as_str : WorkItemStatus → String
  | WorkItemStatus.pending => "pending"
  | WorkItemStatus.inProgress => "in_progress"
  | WorkItemStatus.awaitingApproval => "awaiting_approval"
  | WorkItemStatus.approved => "approved"
  | WorkItemStatus.rejected => "rejected"
  | WorkItemStatus.declined => "declined"
  | WorkItemStatus.cancelled => "cancelled"

/-- WorkItemStatus::is_terminal. -/
def WorkItemStatus.is_terminal : WorkItemStatus → Bool
  | WorkItemStatus.approved => true
  | WorkItemStatus.declined => true
  | WorkItemStatus.cancelled => true
  | _ => false

/-- WorkItemStatus::is_active. -/
def WorkItemStatus.is_active : WorkItemStatus → Bool
  | WorkItemStatus.inProgress => true
  | WorkItemStatus.rejected => true
  | _ => false

/-- work_item.rs WorkPriority. -/
inductive WorkPriority
  | low
  | normal
  | high
  | urgent
deriving DecidableEq

/-- work_item.rs WorkItem. -/
structure WorkItem where
  id : Nat
  journal_id : Nat
  description : String
  block_id : Option Nat
  delegator_id : Nat
  assignee_id : Nat
  status : WorkItemStatus
  priority : WorkPriority
  requires_approval : Bool
  approver_id : Option Nat
  result : Option String
  created_at : Nat
  updated_at : Nat
deriving DecidableEq

/-- WorkItem::new (the fresh id, drawn from Uuid::new_v4 in the source, is
supplied by the caller from the engine's fresh-id supply). -/
def WorkItem.new (id journal_id : Nat) (description : String)
    (delegator_id assignee_id now : Nat) : WorkItem :=
  { id := id, journal_id := journal_id, description := description, block_id := none,
    delegator_id := delegator_id, assignee_id := assignee_id,
    status := WorkItemStatus.pending, priority := WorkPriority.normal,
    requires_approval := false, approver_id := none, result := none,
    created_at := now, updated_at := now }

/-- WorkItem::with_priority. -/
def WorkItem.with_priority (w : WorkItem) (priority : WorkPriority) : WorkItem :=
  { w with priority := priority }

/-- WorkItem::require_approval. -/
def WorkItem.require_approval (w : WorkItem) (approver_id : Option Nat) : WorkItem :=
  { w with requires_approval := true, approver_id := approver_id }

/-- WorkItem::accept: pending → in_progress. -/
def WorkItem.accept (w : WorkItem) (now : Nat) : Except String WorkItem :=
  if w.status ≠ WorkItemStatus.pending then
    Except.error ("Cannot accept work item with status: " ++ w.status.as_str)
  else
    Except.ok { w with status := WorkItemStatus.inProgress, updated_at := now }

/-- WorkItem::decline: pending → declined. -/
def WorkItem.decline (w : WorkItem) (now : Nat) : Except String WorkItem :=
  if w.status ≠ WorkItemStatus.pending then
    Except.error ("Cannot decline work item with status: " ++ w.status.as_str)
  else
    Except.ok { w with status := WorkItemStatus.declined, updated_at := now }

/-- WorkItem::submit_for_approval: active → awaiting_approval or approved. -/
def WorkItem.submit_for_approval (w : WorkItem) (result : String) (now : Nat) :
    Except String WorkItem :=
  if !w.status.is_active then
    Except.error ("Cannot submit work item with status: " ++ w.status.as_str)
  else
    Except.ok { w with
      result := some result
      status := if w.requires_approval then WorkItemStatus.awaitingApproval
        else WorkItemStatus.approved
      updated_at := now }

/-- WorkItem::cancel: any non-terminal status → cancelled. -/
def WorkItem.cancel (w : WorkItem) (now : Nat) : Except String WorkItem :=
  if w.status.is_terminal then
    Except.error ("Cannot cancel work item with terminal status: " ++ w.status.as_str)
  else
    Except.ok { w with status := WorkItemStatus.cancelled, updated_at := now }

/-- WorkItem::get_approver_id: defaults to the delegator. -/
def WorkItem.get_approver_id (w : WorkItem) : Nat :=
  w.approver_id.getD w.delegator_id

/-- work_item.rs ApprovalStatus. -/
inductive ApprovalStatus
  | pending
  | approved
  | rejected
deriving DecidableEq

def ApprovalStatus.as_str : ApprovalStatus → String
  | ApprovalStatus.pending => "pending"
  | ApprovalStatus.approved => "approved"
  | ApprovalStatus.rejected => "rejected"

/-- work_item.rs ApprovalRequest. -/
structure ApprovalRequest where
  id : Nat
  work_item_id : Nat
  requester_id : Nat
  approver_id : Nat
  status : ApprovalStatus
  feedback : Option String
  created_at : Nat
  resolved_at : Option Nat
deriving DecidableEq

/-- ApprovalRequest::new: requester = the work's assignee, approver =
work.get_approver_id(). -/
def ApprovalRequest.new (id : Nat) (work_item : WorkItem) (now : Nat) : ApprovalRequest :=
  { id := id, work_item_id := work_item.id, requester_id := work_item.assignee_id,
    approver_id := work_item.get_approver_id, status := ApprovalStatus.pending,
    feedback := none, created_at := now, resolved_at := none }

/-- ApprovalRequest::approve. -/
def ApprovalRequest.approve (a : ApprovalRequest) (feedback : Option String)
    (now : Nat) : Except String ApprovalRequest :=
  if a.status ≠ ApprovalStatus.pending then
    Except.error ("Cannot approve request with status: " ++ a.status.as_str)
  else
    Except.ok { a with
      status := ApprovalStatus.approved
      feedback := feedback
      resolved_at := some now }

/-- ApprovalRequest::reject. -/
def ApprovalRequest.reject (a : ApprovalRequest) (feedback : String)
    (now : Nat) : Except String ApprovalRequest :=
  if a.status ≠ ApprovalStatus.pending then
    Except.error ("Cannot reject request with status: " ++ a.status.as_str)
  else
    Except.ok { a with
      status := ApprovalStatus.rejected
      feedback := some feedback
      resolved_at := some now }

/-- manager.rs DelegationEvent. -/
inductive DelegationEvent
  | participantRegistered (participant_id : Nat) (name : String) (kind : ParticipantKind)
  | capabilitiesChanged (participant_id : Nat) (capabilities : List Capability)
  | workDelegated (work_item_id delegator_id assignee_id : Nat) (description : String)
  | workAccepted (work_item_id assignee_id : Nat)
  | workDeclined (work_item_id assignee_id : Nat)
  | approvalRequested (approval_id work_item_id requester_id approver_id : Nat)
  | workApproved (work_item_id approver_id : Nat) (feedback : Option String)
  | workRejected (work_item_id approver_id : Nat) (feedback : String)
  | workCancelled (work_item_id cancelled_by : Nat)
  | workClaimed (work_item_id claimed_by : Nat)
  | participantStatusChanged (participant_id : Nat) (accepting_work : Bool)
deriving DecidableEq

/-- manager.rs DelegationError. -/
inductive DelegationError
  | participantNotFound (id : Nat)
  | workItemNotFound (id : Nat)
  | approvalNotFound (id : Nat)
  | insufficientCapability (participant_id : Nat) (required : Capability)
  | notAcceptingWork (id : Nat)
  | invalidStateTransition (msg : String)
  | notAuthorized (msg : String)
deriving DecidableEq

/-- The DelegationManager's five HashMaps are modelled extensionally as
total functions (a missing key maps to none, a missing queue entry to the
empty queue, matching the unwrap_or_default reads of the source); the
broadcast channel is modelled as the list of events sent so far, and
Uuid::new_v4 / Utc::now as a fresh-id supply and a monotone clock. -/
structure ManagerState where
  participants : Nat → Option RegisteredParticipant
  work_items : Nat → Option WorkItem
  approvals : Nat → Option ApprovalRequest
  work_queues : Nat → List Nat
  approval_queues : Nat → List Nat
  events : List DelegationEvent
  nextId : Nat
  clock : Nat

/-- Pointwise update of a total-function map. -/
def mapUpd {α : Type} (m : Nat → α) (k : Nat) (v : α) : Nat → α :=
  fun q => if q = k then v else m q

/-- DelegationManager::new. -/
def initManager : ManagerState :=
  { participants := fun _ => none, work_items := fun _ => none,
    approvals := fun _ => none, work_queues := fun _ => [],
    approval_queues := fun _ => [], events := [], nextId := 0, clock := 0 }

/-- DelegationManager::register_participant.  The or_default insertions
into the two queue maps materialise empty entries and are no-ops in the
total-function model. -/
def register_participant (st : ManagerState) (p : Participant) :
    RegisteredParticipant × ManagerState :=
  let registered := RegisteredParticipant.new p st.clock
  let id := registered.id
  (registered,
   { st with
     participants := mapUpd st.participants id (some registered)
     events := st.events ++
       [DelegationEvent.participantRegistered id registered.name registered.kind]
     clock := st.clock + 1 })

/-- DelegationManager::register_participant_with_capabilities. -/
def register_participant_with_capabilities (st : ManagerState) (p : Participant)
    (capabilities : CapabilitySet) : RegisteredParticipant × ManagerState :=
  let registered := RegisteredParticipant.with_capabilities p capabilities st.clock
  let id := registered.id
  (registered,
   { st with
     participants := mapUpd st.participants id (some registered)
     events := st.events ++
       [DelegationEvent.participantRegistered id registered.name registered.kind]
     clock := st.clock + 1 })

/-- DelegationManager::get_participant. -/
def get_participant (st : ManagerState) (id : Nat) : Option RegisteredParticipant :=
  st.participants id

/-- DelegationManager::unregister_participant: removes the registration
entry and returns it; nothing else is touched. -/
def unregister_participant (st : ManagerState) (id : Nat) :
    Option RegisteredParticipant × ManagerState :=
  (st.participants id, { st with participants := mapUpd st.participants id none })

/-- DelegationManager::update_capabilities. -/
def update_capabilities (st : ManagerState) (participant_id : Nat)
    (capabilities : CapabilitySet) : Except DelegationError Unit × ManagerState :=
  match st.participants participant_id with
  | none => (Except.error (DelegationError.participantNotFound participant_id), st)
  | some participant =>
    (Except.ok (),
     { st with
       participants := mapUpd st.participants participant_id
         (some { participant with capabilities := capabilities })
       events := st.events ++
         [DelegationEvent.capabilitiesChanged participant_id capabilities.capabilities] })

/-- DelegationManager::set_accepting_work. -/
def set_accepting_work (st : ManagerState) (participant_id : Nat) (accepting : Bool) :
    Except DelegationError Unit × ManagerState :=
  match st.participants participant_id with
  | none => (Except.error (DelegationError.participantNotFound participant_id), st)
  | some participant =>
    (Except.ok (),
     { st with
       participants := mapUpd st.participants participant_id
         (some (participant.set_accepting_work accepting))
       events := st.events ++
         [DelegationEvent.participantStatusChanged participant_id accepting] })

/-- The work-item builder chain of DelegationManager::delegate:
WorkItem::new, then with_priority when a priority is given, then
require_approval when approval is required. -/
def mkDelegatedItem (id journal_id : Nat) (description : String)
    (delegator_id assignee_id now : Nat) (priority : Option WorkPriority)
    (requires_approval : Bool) (approver_id : Option Nat) : WorkItem :=
  let work_item := WorkItem.new id journal_id description delegator_id assignee_id now
  let work_item := match priority with
    | some p => work_item.with_priority p
    | none => work_item
  if requires_approval then work_item.require_approval approver_id else work_item

/-- DelegationManager::delegate. -/
def delegate (st : ManagerState) (journal_id : Nat) (description : String)
    (delegator_id assignee_id : Nat) (priority : Option WorkPriority)
    (requires_approval : Bool) (approver_id : Option Nat) :
    Except DelegationError WorkItem × ManagerState :=
  match st.participants delegator_id with
  | none => (Except.error (DelegationError.participantNotFound delegator_id), st)
  | some delegator =>
    if !delegator.can_delegate then
      (Except.error (DelegationError.insufficientCapability delegator_id
        Capability.delegate), st)
    else match st.participants assignee_id with
      | none => (Except.error (DelegationError.participantNotFound assignee_id), st)
      | some assignee =>
        if !assignee.can_receive_work then
          (Except.error (DelegationError.notAcceptingWork assignee_id), st)
        else
          let work_item := mkDelegatedItem st.nextId journal_id description
            delegator_id assignee_id st.clock priority requires_approval approver_id
          let work_item_id := work_item.id
          (Except.ok work_item,
           { st with
             work_items := mapUpd st.work_items work_item_id (some work_item)
             work_queues := mapUpd st.work_queues assignee_id
               (st.work_queues assignee_id ++ [work_item_id])
             events := st.events ++ [DelegationEvent.workDelegated work_item_id
               delegator_id assignee_id description]
             nextId := st.nextId + 1
             clock := st.clock + 1 })

/-- DelegationManager::accept_work (note: the work queue is not touched). -/
def accept_work (st : ManagerState) (work_item_id acceptor_id : Nat) :
    Except DelegationError WorkItem × ManagerState :=
  match st.work_items work_item_id with
  | none => (Except.error (DelegationError.workItemNotFound work_item_id), st)
  | some item =>
    if item.assignee_id ≠ acceptor_id then
      (Except.error (DelegationError.notAuthorized "Only the assignee can accept work"), st)
    else match item.accept st.clock with
      | Except.error msg => (Except.error (DelegationError.invalidStateTransition msg), st)
      | Except.ok item' =>
        (Except.ok item',
         { st with
           work_items := mapUpd st.work_items work_item_id (some item')
           events := st.events ++ [DelegationEvent.workAccepted work_item_id acceptor_id]
           clock := st.clock + 1 })

/-- DelegationManager::decline_work: pending → declined, then remove from
the decliner's queue. -/
def decline_work (st : ManagerState) (work_item_id decliner_id : Nat) :
    Except DelegationError WorkItem × ManagerState :=
  match st.work_items work_item_id with
  | none => (Except.error (DelegationError.workItemNotFound work_item_id), st)
  | some item =>
    if item.assignee_id ≠ decliner_id then
      (Except.error (DelegationError.notAuthorized "Only the assignee can decline work"), st)
    else match item.decline st.clock with
      | Except.error msg => (Except.error (DelegationError.invalidStateTransition msg), st)
      | Except.ok item' =>
        (Except.ok item',
         { st with
           work_items := mapUpd st.work_items work_item_id (some item')
           work_queues := mapUpd st.work_queues decliner_id
             ((st.work_queues decliner_id).filter (fun id => id ≠ work_item_id))
           events := st.events ++ [DelegationEvent.workDeclined work_item_id decliner_id]
           clock := st.clock + 1 })

/-- DelegationManager::submit_work: set the result, move to
awaiting_approval (creating an approval request and enqueueing it on the
approver) or directly to approved; in both cases remove the work item from
the submitter's queue. -/
def submit_work (st : ManagerState) (work_item_id submitter_id : Nat)
    (result : String) : Except DelegationError WorkItem × ManagerState :=
  match st.work_items work_item_id with
  | none => (Except.error (DelegationError.workItemNotFound work_item_id), st)
  | some item =>
    if item.assignee_id ≠ submitter_id then
      (Except.error (DelegationError.notAuthorized "Only the assignee can submit work"), st)
    else
      let needs_approval := item.requires_approval
      match item.submit_for_approval result st.clock with
      | Except.error msg => (Except.error (DelegationError.invalidStateTransition msg), st)
      | Except.ok item' =>
        let st1 :=
          { st with
            work_items := mapUpd st.work_items work_item_id (some item')
            work_queues := mapUpd st.work_queues submitter_id
              ((st.work_queues submitter_id).filter (fun id => id ≠ work_item_id)) }
        if needs_approval then
          let approval := ApprovalRequest.new st.nextId item' st.clock
          (Except.ok item',
           { st1 with
             approvals := mapUpd st1.approvals approval.id (some approval)
             approval_queues := mapUpd st1.approval_queues approval.approver_id
               (st1.approval_queues approval.approver_id ++ [approval.id])
             events := st1.events ++ [DelegationEvent.approvalRequested approval.id
               work_item_id submitter_id approval.approver_id]
             nextId := st.nextId + 1
             clock := st.clock + 1 })
        else
          (Except.ok item',
           { st1 with
             events := st1.events ++ [DelegationEvent.workApproved work_item_id
               item'.delegator_id none]
             clock := st.clock + 1 })

/-- DelegationManager::approve.  The approval is mutated before the work
item is looked up, exactly as in the source (where a missing work item
would leave the approval already resolved). -/
def approve (st : ManagerState) (approval_id approver_id : Nat)
    (feedback : Option String) :
    Except DelegationError (ApprovalRequest × WorkItem) × ManagerState :=
  match st.participants approver_id with
  | none => (Except.error (DelegationError.participantNotFound approver_id), st)
  | some approver =>
    if !approver.can_approve then
      (Except.error (DelegationError.insufficientCapability approver_id
        Capability.approve), st)
    else match st.approvals approval_id with
      | none => (Except.error (DelegationError.approvalNotFound approval_id), st)
      | some approval =>
        if approval.approver_id ≠ approver_id then
          (Except.error (DelegationError.notAuthorized "Not the designated approver"), st)
        else match approval.approve feedback st.clock with
          | Except.error msg =>
            (Except.error (DelegationError.invalidStateTransition msg), st)
          | Except.ok approval' =>
            let work_item_id := approval'.work_item_id
            let stA := { st with
              approvals := mapUpd st.approvals approval_id (some approval') }
            match stA.work_items work_item_id with
            | none => (Except.error (DelegationError.workItemNotFound work_item_id), stA)
            | some item =>
              let item' := { item with
                status := WorkItemStatus.approved
                updated_at := st.clock }
              (Except.ok (approval', item'),
               { stA with
                 work_items := mapUpd stA.work_items work_item_id (some item')
                 approval_queues := mapUpd stA.approval_queues approver_id
                   ((stA.approval_queues approver_id).filter (fun id => id ≠ approval_id))
                 events := stA.events ++ [DelegationEvent.workApproved work_item_id
                   approver_id feedback]
                 clock := st.clock + 1 })

/-- DelegationManager::reject: resolve the approval as rejected, set the
work item back to rejected, re-append it to the original assignee's
(the approval's requester's) queue for rework, and remove the approval
from the rejecter's approval queue. -/
def reject (st : ManagerState) (approval_id rejecter_id : Nat) (feedback : String) :
    Except DelegationError (ApprovalRequest × WorkItem) × ManagerState :=
  match st.participants rejecter_id with
  | none => (Except.error (DelegationError.participantNotFound rejecter_id), st)
  | some rejecter =>
    if !rejecter.can_approve then
      (Except.error (DelegationError.insufficientCapability rejecter_id
        Capability.approve), st)
    else match st.approvals approval_id with
      | none => (Except.error (DelegationError.approvalNotFound approval_id), st)
      | some approval =>
        if approval.approver_id ≠ rejecter_id then
          (Except.error (DelegationError.notAuthorized "Not the designated approver"), st)
        else match approval.reject feedback st.clock with
          | Except.error msg =>
            (Except.error (DelegationError.invalidStateTransition msg), st)
          | Except.ok approval' =>
            let work_item_id := approval'.work_item_id
            let assignee_id := approval'.requester_id
            let stA := { st with
              approvals := mapUpd st.approvals approval_id (some approval') }
            match stA.work_items work_item_id with
            | none => (Except.error (DelegationError.workItemNotFound work_item_id), stA)
            | some item =>
              let item' := { item with
                status := WorkItemStatus.rejected
                updated_at := st.clock }
              (Except.ok (approval', item'),
               { stA with
                 work_items := mapUpd stA.work_items work_item_id (some item')
                 work_queues := mapUpd stA.work_queues assignee_id
                   (stA.work_queues assignee_id ++ [work_item_id])
                 approval_queues := mapUpd stA.approval_queues rejecter_id
                   ((stA.approval_queues rejecter_id).filter (fun id => id ≠ approval_id))
                 events := stA.events ++ [DelegationEvent.workRejected work_item_id
                   rejecter_id feedback]
                 clock := st.clock + 1 })

/-- DelegationManager::cancel_work: only the delegator, only non-terminal;
removes the item from the assignee's queue. -/
def cancel_work (st : ManagerState) (work_item_id canceller_id : Nat) :
    Except DelegationError WorkItem × ManagerState :=
  match st.work_items work_item_id with
  | none => (Except.error (DelegationError.workItemNotFound work_item_id), st)
  | some item =>
    if item.delegator_id ≠ canceller_id then
      (Except.error (DelegationError.notAuthorized "Only the delegator can cancel work"), st)
    else match item.cancel st.clock with
      | Except.error msg => (Except.error (DelegationError.invalidStateTransition msg), st)
      | Except.ok item' =>
        (Except.ok item',
         { st with
           work_items := mapUpd st.work_items work_item_id (some item')
           work_queues := mapUpd st.work_queues item'.assignee_id
             ((st.work_queues item'.assignee_id).filter (fun id => id ≠ work_item_id))
           events := st.events ++ [DelegationEvent.workCancelled work_item_id canceller_id]
           clock := st.clock + 1 })

/-- DelegationManager::claim_work: reassign a pending item to the claimer,
moving it from the old assignee's queue to the claimer's. -/
def claim_work (st : ManagerState) (work_item_id claimer_id : Nat) :
    Except DelegationError WorkItem × ManagerState :=
  match st.participants claimer_id with
  | none => (Except.error (DelegationError.participantNotFound claimer_id), st)
  | some claimer =>
    if !claimer.can_receive_work then
      (Except.error (DelegationError.notAcceptingWork claimer_id), st)
    else match st.work_items work_item_id with
      | none => (Except.error (DelegationError.workItemNotFound work_item_id), st)
      | some item =>
        if item.status ≠ WorkItemStatus.pending then
          (Except.error (DelegationError.invalidStateTransition
            "Can only claim pending work"), st)
        else
          let old_assignee := item.assignee_id
          let queues1 := mapUpd st.work_queues old_assignee
            ((st.work_queues old_assignee).filter (fun id => id ≠ work_item_id))
          let item' := { item with assignee_id := claimer_id, updated_at := st.clock }
          let queues2 := mapUpd queues1 claimer_id (queues1 claimer_id ++ [work_item_id])
          (Except.ok item',
           { st with
             work_items := mapUpd st.work_items work_item_id (some item')
             work_queues := queues2
             events := st.events ++ [DelegationEvent.workClaimed work_item_id claimer_id]
             clock := st.clock + 1 })

/-- DelegationManager::get_work_queue: resolve the queue's ids against the
work-item map, skipping unknown ids. -/
def get_work_queue (st : ManagerState) (participant_id : Nat) : List WorkItem :=
  (st.work_queues participant_id).filterMap (fun id => st.work_items id)

/-- DelegationManager::get_approval_queue. -/
def get_approval_queue (st : ManagerState) (participant_id : Nat) : List ApprovalRequest :=
  (st.approval_queues participant_id).filterMap (fun id => st.approvals id)

/-- DelegationManager::get_work_item. -/
def get_work_item (st : ManagerState) (id : Nat) : Option WorkItem :=
  st.work_items id

/-- DelegationManager::get_approval. -/
def get_approval (st : ManagerState) (id : Nat) : Option ApprovalRequest :=
  st.approvals id

/-- One engine operation (the arguments of the corresponding manager
method). -/
inductive Op
  | register (p : Participant)
  | registerWith (p : Participant) (caps : CapabilitySet)
  | unregister (id : Nat)
  | updateCaps (participant_id : Nat) (caps : CapabilitySet)
  | setAccepting (participant_id : Nat) (accepting : Bool)
  | delegateOp (journal_id : Nat) (description : String) (delegator_id assignee_id : Nat)
      (priority : Option WorkPriority) (requires_approval : Bool)
      (approver_id : Option Nat)
  | acceptOp (work_item_id acceptor_id : Nat)
  | declineOp (work_item_id decliner_id : Nat)
  | submitOp (work_item_id submitter_id : Nat) (result : String)
  | approveOp (approval_id approver_id : Nat) (feedback : Option String)
  | rejectOp (approval_id rejecter_id : Nat) (feedback : String)
  | cancelOp (work_item_id canceller_id : Nat)
  | claimOp (work_item_id claimer_id : Nat)

/-- State transition of one operation (failed operations leave the state
as the source leaves it, including the partial mutation in approve and
reject when the work item referenced by a resolved approval is missing). -/
def step (st : ManagerState) : Op → ManagerState
  | Op.register p => (register_participant st p).2
  | Op.registerWith p caps => (register_participant_with_capabilities st p caps).2
  | Op.unregister id => (unregister_participant st id).2
  | Op.updateCaps pid caps => (update_capabilities st pid caps).2
  | Op.setAccepting pid b => (set_accepting_work st pid b).2
  | Op.delegateOp j d del asg pr ra ap => (delegate st j d del asg pr ra ap).2
  | Op.acceptOp wid a => (accept_work st wid a).2
  | Op.declineOp wid d => (decline_work st wid d).2
  | Op.submitOp wid s r => (submit_work st wid s r).2
  | Op.approveOp aid ap f => (approve st aid ap f).2
  | Op.rejectOp aid rj f => (reject st aid rj f).2
  | Op.cancelOp wid c => (cancel_work st wid c).2
  | Op.claimOp wid c => (claim_work st wid c).2

/-- Run a sequence of operations from the fresh engine. -/
def run (ops : List Op) : ManagerState := ops.foldl step initManager

/-- The statuses under which a work item sits in its assignee's queue. -/
def inQueueStatus : WorkItemStatus → Bool
  | WorkItemStatus.pending => true
  | WorkItemStatus.inProgress => true
  | WorkItemStatus.rejected => true
  | _ => false

/-- The work-queue membership invariant that actually holds of the engine
(together with the auxiliary facts needed to maintain it inductively):
a work item is in its assignee's queue exactly once iff its status is
pending, in_progress or rejected, and in no other queue; queue entries
reference existing items; ids are below the fresh-id supply; a pending
approval's work item exists, is assigned to the approval's requester and
is awaiting approval (or was cancelled while awaiting it); and distinct
pending approvals concern distinct work items. -/
structure Inv (st : ManagerState) : Prop where
  key_id : ∀ wid item, st.work_items wid = some item → item.id = wid
  fresh_item : ∀ k, st.nextId ≤ k → st.work_items k = none
  fresh_approval : ∀ k, st.nextId ≤ k → st.approvals k = none
  queue_known : ∀ pid wid, st.work_items wid = none → (st.work_queues pid).count wid = 0
  queue_count : ∀ wid item, st.work_items wid = some item →
    (st.work_queues item.assignee_id).count wid =
      (if inQueueStatus item.status then 1 else 0)
  queue_other : ∀ wid item pid, st.work_items wid = some item →
    pid ≠ item.assignee_id → (st.work_queues pid).count wid = 0
  pending_approval : ∀ aid a, st.approvals aid = some a →
    a.status = ApprovalStatus.pending →
    ∃ item, st.work_items a.work_item_id = some item ∧
      item.assignee_id = a.requester_id ∧
      (item.status = WorkItemStatus.awaitingApproval ∨
       item.status = WorkItemStatus.cancelled)
  pending_unique : ∀ aid a bid b, st.approvals aid = some a →
    st.approvals bid = some b → a.status = ApprovalStatus.pending →
    b.status = ApprovalStatus.pending → a.work_item_id = b.work_item_id → aid = bid

/-- The two registered participants and the operation trace used by the
queue-membership scenarios: Alice (user, id 10) delegates to Bob (agent,
id 11), who accepts; the work item gets id 0. -/
def c1Ops : List Op :=
  [Op.register { id := 10, name := "Alice", kind := ParticipantKind.user },
   Op.register { id := 11, name := "Bob", kind := ParticipantKind.agent },
   Op.delegateOp 5 "d" 10 11 none false none,
   Op.acceptOp 0 11]

/-- The accepted work item produced by c1Ops. -/
def c1Item : WorkItem :=
  { id := 0, journal_id := 5, description := "d", block_id := none,
    delegator_id := 10, assignee_id := 11, status := WorkItemStatus.inProgress,
    priority := WorkPriority.normal, requires_approval := false,
    approver_id := none, result := none, created_at := 2, updated_at := 3 }


/-- Trace reaching a pending approval: Alice (user, id 10) delegates to
Bob (agent, id 11) with approval required and Alice as approver; Bob
accepts and submits.  The work item gets id 0, the approval id 1. -/
def c7Ops : List Op :=
  [Op.register { id := 10, name := "Alice", kind := ParticipantKind.user },
   Op.register { id := 11, name := "Bob", kind := ParticipantKind.agent },
   Op.delegateOp 5 "d" 10 11 none true (some 10),
   Op.acceptOp 0 11,
   Op.submitOp 0 11 "res"]

/-- Alice's registration entry in run c7Ops. -/
def c7Alice : RegisteredParticipant :=
  { participant := { id := 10, name := "Alice", kind := ParticipantKind.user }
    capabilities := Capability.default_user
    accepting_work := true
    work_capacity := 5
    registered_at := 0 }

/-- The submitted work item of run c7Ops. -/
def c7Item : WorkItem :=
  { id := 0, journal_id := 5, description := "d", block_id := none,
    delegator_id := 10, assignee_id := 11,
    status := WorkItemStatus.awaitingApproval,
    priority := WorkPriority.normal, requires_approval := true,
    approver_id := some 10, result := some "res",
    created_at := 2, updated_at := 4 }

/-- The pending approval request of run c7Ops. -/
def c7Approval : ApprovalRequest :=
  { id := 1, work_item_id := 0, requester_id := 11, approver_id := 10,
    status := ApprovalStatus.pending, feedback := none,
    created_at := 4, resolved_at := none }

end Deleg
namespace OC

/-- opencode.rs StreamEvent. -/
inductive StreamEvent
  | content (text : String)
  | done
  | error (message : String) (code : Option String)
  | unknown (event_type : String) (data : String)
deriving DecidableEq

/-- serde_json::Value. -/
inductive Json
  | null
  | bool (b : Bool)
  | num (n : Int)
  | str (s : String)
  | arr (xs : List Json)
  | obj (fields : List (String × Json))

/-- Value::get on an object (first binding of the key; the engine never
builds objects with a repeated key). -/
def Json.get : Json → String → Option Json
  | Json.obj fields, key => (fields.find? (fun f => f.1 = key)).map (fun f => f.2)
  | _, _ => none

/-- Value::as_str. -/
def Json.as_str : Json → Option String
  | Json.str s => some s
  | _ => none

/-- JSON escaping of one character (quote, backslash and the common
control characters), as serde's compact Display produces for the values
the engine handles. -/
def escapeJsonChar (c : Char) : String :=
  if c = '"' then "\\\""
  else if c = '\\' then "\\\\"
  else if c = '\n' then "\\n"
  else if c = '\r' then "\\r"
  else if c = '\t' then "\\t"
  else String.singleton c

def escapeJsonString (s : String) : String :=
  "\"" ++ String.join (s.toList.map escapeJsonChar) ++ "\""

mutual

/-- Value::to_string (serde's compact serialization). -/
def jsonToString : Json → String
  | Json.null => "null"
  | Json.bool true => "true"
  | Json.bool false => "false"
  | Json.num n => toString n
  | Json.str s => escapeJsonString s
  | Json.arr xs => "[" ++ jsonListToString xs ++ "]"
  | Json.obj fs => "\x7b" ++ jsonObjToString fs ++ "\x7d"

def jsonListToString : List Json → String
  | [] => ""
  | [x] => jsonToString x
  | x :: y :: xs => jsonToString x ++ "," ++ jsonListToString (y :: xs)

def jsonObjToString : List (String × Json) → String
  | [] => ""
  | [f] => escapeJsonString f.1 ++ ":" ++ jsonToString f.2
  | f :: g :: fs =>
    escapeJsonString f.1 ++ ":" ++ jsonToString f.2 ++ "," ++ jsonObjToString (g :: fs)

end

/-- opencode.rs parse_event.  serde_json::from_str is the upstream JSON
library; its outcome on the data string is passed in as `parsed` (none
models a parse failure, whose dynamic message is abbreviated).  The rest
follows the source: the payload type falls back to the SSE event type,
the session filter consults properties.sessionID and
properties.part.sessionID, and the payload types message.part.updated,
session.idle and session.error are interpreted. -/
def parse_event (event_type data : String) (session_filter : Option String)
    (parsed : Option Json) : Except Store.AppError (Option StreamEvent) :=
  match parsed with
  | none => Except.error (Store.AppError.openCode "Failed to parse event")
  | some event =>
    let payload_type := ((event.get "type").bind Json.as_str).getD event_type
    let properties := event.get "properties"
    let skip : Bool :=
      match session_filter with
      | none => false
      | some filter_session =>
        match properties with
        | none => false
        | some props =>
          let s1 := match (props.get "sessionID").bind Json.as_str with
            | some session_id => session_id ≠ filter_session
            | none => false
          let s2 := match props.get "part" with
            | some part =>
              match (part.get "sessionID").bind Json.as_str with
              | some session_id => session_id ≠ filter_session
              | none => false
            | none => false
          s1 || s2
    if skip then Except.ok none
    else if payload_type = "message.part.updated" then
      match properties with
      | some props =>
        match (props.get "delta").bind Json.as_str with
        | some delta => Except.ok (some (StreamEvent.content delta))
        | none =>
          match props.get "part" with
          | some part =>
            match (part.get "content").bind Json.as_str with
            | some content =>
              if content ≠ "" then Except.ok (some (StreamEvent.content content))
              else Except.ok none
            | none => Except.ok none
          | none => Except.ok none
      | none => Except.ok none
    else if payload_type = "session.idle" then Except.ok (some StreamEvent.done)
    else if payload_type = "session.error" then
      match properties with
      | some props =>
        match props.get "error" with
        | some error =>
          match (error.get "message").bind Json.as_str with
          | some msg => Except.ok (some (StreamEvent.error msg none))
          | none => Except.ok (some (StreamEvent.error (jsonToString error) none))
        | none => Except.ok (some (StreamEvent.error "Unknown error" none))
      | none => Except.ok (some (StreamEvent.error "Session error" none))
    else Except.ok (some (StreamEvent.unknown payload_type data))

/-- An event whose delta is present but empty while part.content is a
non-empty string. -/
def c5Json : Json :=
  Json.obj [("type", Json.str "message.part.updated"),
    ("properties", Json.obj [("delta", Json.str ""),
      ("part", Json.obj [("content", Json.str "hello")])])]

/-- The same event without the delta key. -/
def c5NoDeltaJson : Json :=
  Json.obj [("type", Json.str "message.part.updated"),
    ("properties", Json.obj [("part", Json.obj [("content", Json.str "hello")])])]

def c5NoDeltaProps : Json :=
  Json.obj [("part", Json.obj [("content", Json.str "hello")])]

end OC

namespace Pipe

/-- The block-status writes the event loop of websocket.rs handle_submit
performs for one upstream stream item: Ok(Done) → complete, Ok(Error _) →
error, a stream-level Err → error (logged, no frame sent), Content and
Unknown → no status write.  The loop continues after every arm, the two
error arms included. -/
def eventStatusWrites : Except String OC.StreamEvent → List Store.BlockStatus
  | Except.ok (OC.StreamEvent.content _) => []
  | Except.ok OC.StreamEvent.done => [Store.BlockStatus.complete]
  | Except.ok (OC.StreamEvent.error _ _) => [Store.BlockStatus.error]
  | Except.ok (OC.StreamEvent.unknown _ _) => []
  | Except.error _ => [Store.BlockStatus.error]

/-- All status writes of the loop over a finished upstream stream, in
order. -/
def submitWrites : List (Except String OC.StreamEvent) → List Store.BlockStatus
  | [] => []
  | e :: rest => eventStatusWrites e ++ submitWrites rest

/-- The assistant block's status trace in handle_submit: created pending,
set to streaming before the stream is read, then the loop's writes. -/
def submitStatusTrace (events : List (Except String OC.StreamEvent)) :
    List Store.BlockStatus :=
  Store.BlockStatus.pending :: Store.BlockStatus.streaming :: submitWrites events

/-- One admissible step of the spec's status path pending → streaming →
{complete | error} with stable repeats; a terminal status admits only
itself. -/
def stepOk : Store.BlockStatus → Store.BlockStatus → Bool
  | Store.BlockStatus.pending, Store.BlockStatus.pending => true
  | Store.BlockStatus.pending, Store.BlockStatus.streaming => true
  | Store.BlockStatus.streaming, Store.BlockStatus.streaming => true
  | Store.BlockStatus.streaming, Store.BlockStatus.complete => true
  | Store.BlockStatus.streaming, Store.BlockStatus.error => true
  | Store.BlockStatus.complete, Store.BlockStatus.complete => true
  | Store.BlockStatus.error, Store.BlockStatus.error => true
  | _, _ => false

/-- Every consecutive pair of the sequence is an admissible step. -/
def statusSeqOk : List Store.BlockStatus → Bool
  | [] => true
  | [_] => true
  | a :: b :: rest => stepOk a b && statusSeqOk (b :: rest)

/-- The upstream stream contains an Ok(Done) item. -/
def hasDone (events : List (Except String OC.StreamEvent)) : Bool :=
  events.any (fun e => e = Except.ok OC.StreamEvent.done)

/-- The upstream stream contains an error item: an Ok(Error _) event or a
stream-level Err. -/
def hasErr (events : List (Except String OC.StreamEvent)) : Bool :=
  events.any (fun e => match e with
    | Except.ok (OC.StreamEvent.error _ _) => true
    | Except.error _ => true
    | _ => false)

end Pipe


namespace SSE

/-- The persistent state of the stream loop in opencode.rs
parse_sse_stream: the unconsumed buffer (its tail after the last complete
line) and the accumulating event_type and data fields. -/
structure SseState where
  buffer : List Char
  event_type : String
  data : String
deriving DecidableEq

def initSse : SseState := ⟨[], "", ""⟩

/-- The complete lines of the buffer, in order, and the remaining tail:
the while-find-newline loop of the source repeatedly takes the prefix up
to the first newline as a line; when no newline remains the rest stays in
the buffer. -/
def splitLines : List Char → List (List Char) × List Char
  | [] => ([], [])
  | c :: cs =>
    let r := splitLines cs
    if c = '\n' then ([] :: r.1, r.2)
    else
      match r.1 with
      | l :: ls => ((c :: l) :: ls, r.2)
      | [] => ([], c :: cs)

/-- str::trim_end_matches with the carriage return: drop every trailing
CR, applied to each line before interpreting it. -/
def dropTrailingCr (l : List Char) : List Char :=
  (l.reverse.dropWhile (fun c => c = '\r')).reverse

/-- The outcome of one line of the loop body: the updated event_type and
data fields and the dispatched (event_type, data) pair, when any. -/
structure LineStep where
  event_type : String
  data : String
  emitted : Option (String × String)
deriving DecidableEq

/-- The loop body of parse_sse_stream for one complete line: an empty
line dispatches the accumulated event to the interpreter (parse_event)
when data is non-empty and clears both fields; an event: line replaces
event_type with the trimmed value; a data: line appends the trimmed
value (after a newline when data was non-empty); any other line is
ignored. -/
def processLine (event_type data : String) (line : List Char) : LineStep :=
  if line = [] then
    if data ≠ "" then ⟨"", "", some (event_type, data)⟩
    else ⟨event_type, data, none⟩
  else if line.take 6 = "event:".toList then
    ⟨(Wire.rustTrim (line.drop 6)).asString, data, none⟩
  else if line.take 5 = "data:".toList then
    ⟨event_type,
     (if data ≠ "" then data ++ "\n" else data) ++
       (Wire.rustTrim (line.drop 5)).asString,
     none⟩
  else ⟨event_type, data, none⟩

/-- The dispatched pairs and final fields after a run of complete
lines. -/
structure ProcResult where
  emitted : List (String × String)
  event_type : String
  data : String
deriving DecidableEq

def processLines (event_type data : String) : List (List Char) → ProcResult
  | [] => ⟨[], event_type, data⟩
  | l :: ls =>
    let p := processLine event_type data (dropTrailingCr l)
    let r := processLines p.event_type p.data ls
    ⟨p.emitted.toList ++ r.emitted, r.event_type, r.data⟩

/-- One iteration of the chunk loop at the character level: append the
chunk to the buffer, then process every complete line. -/
def feed (st : SseState) (chunk : List Char) : List (String × String) × SseState :=
  let s := splitLines (st.buffer ++ chunk)
  let r := processLines st.event_type st.data s.1
  (r.emitted, ⟨s.2, r.event_type, r.data⟩)

def feedAll (st : SseState) : List (List Char) → List (String × String) × SseState
  | [] => ([], st)
  | c :: cs =>
    let r := feed st c
    let rest := feedAll r.2 cs
    (r.1 ++ rest.1, rest.2)

/-- The replacement character of lossy UTF-8 decoding. -/
def repl : Char := Char.ofNat 0xFFFD

/-- A UTF-8 continuation byte. -/
def contOk (b : Nat) : Bool := 0x80 ≤ b && b ≤ 0xBF

/-- String::from_utf8_lossy, applied by the source to each raw chunk
separately: well-formed sequences decode to their scalar value; an
invalid or truncated sequence becomes one replacement character per
maximal subpart (decoding resumes at the offending byte), exactly the
substitution Rust performs.  Structured with a step-count fuel to stay
structurally recursive. -/
def utf8LossyF : Nat → List Nat → List Char
  | 0, _ => []
  | _ + 1, [] => []
  | fuel + 1, b0 :: rest =>
    if b0 < 0x80 then Char.ofNat b0 :: utf8LossyF fuel rest
    else if b0 < 0xC2 then repl :: utf8LossyF fuel rest
    else if b0 ≤ 0xDF then
      match rest with
      | [] => [repl]
      | b1 :: rest1 =>
        if contOk b1 then
          Char.ofNat ((b0 - 0xC0) * 64 + (b1 - 0x80)) :: utf8LossyF fuel rest1
        else repl :: utf8LossyF fuel (b1 :: rest1)
    else if b0 ≤ 0xEF then
      match rest with
      | [] => [repl]
      | b1 :: rest1 =>
        if (if b0 = 0xE0 then 0xA0 else 0x80) ≤ b1 &&
           b1 ≤ (if b0 = 0xED then 0x9F else 0xBF) then
          match rest1 with
          | [] => [repl]
          | b2 :: rest2 =>
            if contOk b2 then
              Char.ofNat ((b0 - 0xE0) * 4096 + (b1 - 0x80) * 64 + (b2 - 0x80)) ::
                utf8LossyF fuel rest2
            else repl :: utf8LossyF fuel (b2 :: rest2)
        else repl :: utf8LossyF fuel (b1 :: rest1)
    else if b0 ≤ 0xF4 then
      match rest with
      | [] => [repl]
      | b1 :: rest1 =>
        if (if b0 = 0xF0 then 0x90 else 0x80) ≤ b1 &&
           b1 ≤ (if b0 = 0xF4 then 0x8F else 0xBF) then
          match rest1 with
          | [] => [repl]
          | b2 :: rest2 =>
            if contOk b2 then
              match rest2 with
              | [] => [repl]
              | b3 :: rest3 =>
                if contOk b3 then
                  Char.ofNat ((b0 - 0xF0) * 262144 + (b1 - 0x80) * 4096 +
                    (b2 - 0x80) * 64 + (b3 - 0x80)) :: utf8LossyF fuel rest3
                else repl :: utf8LossyF fuel (b3 :: rest3)
            else repl :: utf8LossyF fuel (b2 :: rest2)
        else repl :: utf8LossyF fuel (b1 :: rest1)
    else repl :: utf8LossyF fuel rest

/-- Each step of the decoder consumes at least one byte, so fuel equal to
the byte count never runs out. -/
def utf8Lossy (bs : List Nat) : List Char := utf8LossyF bs.length bs

/-- One iteration of the chunk loop at the byte level, as the source runs
it: the raw chunk goes through from_utf8_lossy before joining the
buffer. -/
def feedBytes (st : SseState) (chunk : List Nat) : List (String × String) × SseState :=
  feed st (utf8Lossy chunk)

def feedAllBytes (st : SseState) : List (List Nat) → List (String × String) × SseState
  | [] => ([], st)
  | c :: cs =>
    let r := feedBytes st c
    let rest := feedAllBytes r.2 cs
    (r.1 ++ rest.1, rest.2)

/-- The SSE payload data:"é" followed by a blank line, as UTF-8 bytes
(0xC3 0xA9 is the two-byte encoding of é). -/
def c8Bytes : List Nat := [100, 97, 116, 97, 58, 34, 195, 169, 34, 10, 10]

/-- The same bytes split between the two bytes of é. -/
def c8Chunk1 : List Nat := [100, 97, 116, 97, 58, 34, 195]

def c8Chunk2 : List Nat := [169, 34, 10, 10]

end SSE

-- ============================================================
-- Theorems
-- ============================================================

namespace Wire

-- Small bounded facts bridging the bitwise operations of the source to
-- ordinary arithmetic; all are decided by finite enumeration.

theorem shr2_eq : ∀ b < 256, b >>> 2 = b / 4 := by decide

theorem shr4_eq : ∀ b < 256, b >>> 4 = b / 16 := by decide

theorem shr6_eq : ∀ b < 256, b >>> 6 = b / 64 := by decide

theorem mask3_eq : ∀ b < 256, b &&& 0x03 = b % 4 := by decide

theorem mask15_eq : ∀ b < 256, b &&& 0x0f = b % 16 := by decide

theorem mask63_eq : ∀ b < 256, b &&& 0x3f = b % 64 := by decide

theorem or_shl4 : ∀ x < 4, ∀ y < 16, (x <<< 4) ||| y = 16 * x + y := by decide

theorem or_shl2 : ∀ x < 16, ∀ y < 4, (x <<< 2) ||| y = 4 * x + y := by decide

theorem or_shl2_mod : ∀ x < 64, ∀ y < 4, ((x <<< 2) % 256) ||| y = 4 * x + y := by
  decide

theorem or_shl4_mod : ∀ x < 64, ∀ y < 16, ((x <<< 4) % 256) ||| y = 16 * (x % 16) + y := by
  decide

theorem or_shl6_mod : ∀ x < 64, ∀ y < 64, ((x <<< 6) % 256) ||| y = 64 * (x % 4) + y := by
  decide

theorem shl4_eq : ∀ x < 16, x <<< 4 = 16 * x := by decide

theorem shl2_eq : ∀ x < 64, x <<< 2 = 4 * x := by decide

theorem decode_char_alpha : ∀ i < 64, decode_char (alphaChar i) = Except.ok i := by
  decide

theorem alpha_ne_pad : ∀ i < 64, alphaChar i ≠ '=' := by decide

theorem alpha_not_ws : ∀ i < 64,
    isRustWs (alphaChar i) = false ∧ alphaChar i ≠ '\n' ∧ alphaChar i ≠ '\r' := by
  decide

theorem alpha_mem : ∀ i < 64, alphaChar i ∈ B64_ALPHABET := by decide

/-- Decoding one encoded 3-byte chunk recovers the three bytes. -/
theorem decode3 (b0 b1 b2 : Nat) (h0 : b0 < 256) (h1 : b1 < 256) (h2 : b2 < 256)
    (rest : List Char) :
    decodeChunks (encodeChunk [b0, b1, b2] ++ rest) =
      (decodeChunks rest).map (fun t => b0 :: b1 :: b2 :: t) := by
  have e0 : b0 >>> 2 = b0 / 4 := shr2_eq b0 h0
  have e1 : b0 &&& 0x03 = b0 % 4 := mask3_eq b0 h0
  have e2 : b1 >>> 4 = b1 / 16 := shr4_eq b1 h1
  have e3 : b1 &&& 0x0f = b1 % 16 := mask15_eq b1 h1
  have e4 : b2 >>> 6 = b2 / 64 := shr6_eq b2 h2
  have e5 : b2 &&& 0x3f = b2 % 64 := mask63_eq b2 h2
  have hi0 : b0 / 4 < 64 := by omega
  have hi1 : 16 * (b0 % 4) + b1 / 16 < 64 := by omega
  have hi2 : 4 * (b1 % 16) + b2 / 64 < 64 := by omega
  have hi3 : b2 % 64 < 64 := by omega
  have i1eq : ((b0 &&& 0x03) <<< 4) ||| (b1 >>> 4) = 16 * (b0 % 4) + b1 / 16 := by
    rw [e1, e2]; exact or_shl4 _ (by omega) _ (by omega)
  have i2eq : ((b1 &&& 0x0f) <<< 2) ||| (b2 >>> 6) = 4 * (b1 % 16) + b2 / 64 := by
    rw [e3, e4]; exact or_shl2 _ (by omega) _ (by omega)
  have o0 : (((b0 / 4) <<< 2) % 256) ||| ((16 * (b0 % 4) + b1 / 16) >>> 4) = b0 := by
    rw [shr4_eq _ (by omega), or_shl2_mod _ hi0 _ (by omega)]; omega
  have o1 : (((16 * (b0 % 4) + b1 / 16) <<< 4) % 256) |||
      ((4 * (b1 % 16) + b2 / 64) >>> 2) = b1 := by
    rw [shr2_eq _ (by omega), or_shl4_mod _ hi1 _ (by omega)]; omega
  have o2 : (((4 * (b1 % 16) + b2 / 64) <<< 6) % 256) ||| (b2 % 64) = b2 := by
    rw [or_shl6_mod _ hi2 _ hi3]; omega
  simp only [encodeChunk, List.getD, List.get?, List.length, List.cons_append,
    List.nil_append, gt_iff_lt]
  norm_num
  rw [e0, i1eq, i2eq, e5]
  simp only [decodeChunks, decode_char_alpha _ hi0, decode_char_alpha _ hi1,
    decode_char_alpha _ hi2, decode_char_alpha _ hi3]
  simp only [Except.bind, bind]
  simp [alpha_ne_pad _ hi2, alpha_ne_pad _ hi3, o0, o1, o2, Except.map]

/-- Decoding an encoded final 2-byte chunk recovers the two bytes. -/
theorem decode2 (b0 b1 : Nat) (h0 : b0 < 256) (h1 : b1 < 256) :
    decodeChunks (encodeChunk [b0, b1]) = Except.ok [b0, b1] := by
  have e0 : b0 >>> 2 = b0 / 4 := shr2_eq b0 h0
  have e1 : b0 &&& 0x03 = b0 % 4 := mask3_eq b0 h0
  have e2 : b1 >>> 4 = b1 / 16 := shr4_eq b1 h1
  have e3 : b1 &&& 0x0f = b1 % 16 := mask15_eq b1 h1
  have hi0 : b0 / 4 < 64 := by omega
  have hi1 : 16 * (b0 % 4) + b1 / 16 < 64 := by omega
  have hi2 : 4 * (b1 % 16) < 64 := by omega
  have i1eq : ((b0 &&& 0x03) <<< 4) ||| (b1 >>> 4) = 16 * (b0 % 4) + b1 / 16 := by
    rw [e1, e2]; exact or_shl4 _ (by omega) _ (by omega)
  have i2eq : (b1 &&& 0x0f) <<< 2 = 4 * (b1 % 16) := by
    rw [e3]; exact shl2_eq _ (by omega)
  have o0 : (((b0 / 4) <<< 2) % 256) ||| ((16 * (b0 % 4) + b1 / 16) >>> 4) = b0 := by
    rw [shr4_eq _ (by omega), or_shl2_mod _ hi0 _ (by omega)]; omega
  have o1 : (((16 * (b0 % 4) + b1 / 16) <<< 4) % 256) ||| ((4 * (b1 % 16)) >>> 2) = b1 := by
    rw [shr2_eq _ (by omega), or_shl4_mod _ hi1 _ (by omega)]; omega
  simp only [encodeChunk, List.getD, List.get?, List.length, List.cons_append,
    List.nil_append, gt_iff_lt]
  norm_num
  rw [e0, i1eq, i2eq]
  have pad : decode_char '=' = Except.ok 0 := rfl
  simp only [decodeChunks, decode_char_alpha _ hi0, decode_char_alpha _ hi1,
    decode_char_alpha _ hi2, pad]
  simp only [Except.bind, bind]
  simp [alpha_ne_pad _ hi2, o0, o1]

/-- Decoding an encoded final 1-byte chunk recovers the byte. -/
theorem decode1 (b0 : Nat) (h0 : b0 < 256) :
    decodeChunks (encodeChunk [b0]) = Except.ok [b0] := by
  have e0 : b0 >>> 2 = b0 / 4 := shr2_eq b0 h0
  have e1 : b0 &&& 0x03 = b0 % 4 := mask3_eq b0 h0
  have hi0 : b0 / 4 < 64 := by omega
  have hi1 : 16 * (b0 % 4) < 64 := by omega
  have i1eq : (b0 &&& 0x03) <<< 4 = 16 * (b0 % 4) := by
    rw [e1]; exact shl4_eq _ (by omega)
  have o0 : (((b0 / 4) <<< 2) % 256) ||| ((16 * (b0 % 4)) >>> 4) = b0 := by
    rw [shr4_eq _ (by omega), or_shl2_mod _ hi0 _ (by omega)]; omega
  simp only [encodeChunk, List.getD, List.get?, List.length, List.cons_append,
    List.nil_append, gt_iff_lt]
  norm_num
  rw [e0, i1eq]
  have pad : decode_char '=' = Except.ok 0 := rfl
  simp only [decodeChunks, decode_char_alpha _ hi0, decode_char_alpha _ hi1, pad]
  simp only [Except.bind, bind]
  simp [o0]

/-- The chunk loop of the decoder inverts the encoder. -/
theorem decode_encodeChunks :
    ∀ (x : List Nat), (∀ b ∈ x, b < 256) →
      decodeChunks (base64_encode x) = Except.ok x
  | [], _ => rfl
  | [b0], h => by
    show decodeChunks (encodeChunk [b0]) = Except.ok [b0]
    exact decode1 b0 (h b0 (by simp))
  | [b0, b1], h => by
    show decodeChunks (encodeChunk [b0, b1]) = Except.ok [b0, b1]
    exact decode2 b0 b1 (h b0 (by simp)) (h b1 (by simp))
  | b0 :: b1 :: b2 :: rest, h => by
    show decodeChunks (encodeChunk [b0, b1, b2] ++ base64_encode rest) = _
    rw [decode3 b0 b1 b2 (h b0 (by simp)) (h b1 (by simp)) (h b2 (by simp)),
      decode_encodeChunks rest (fun b hb => h b (by simp [hb]))]
    rfl
termination_by x => x.length

theorem idxA (b0 : Nat) (h : b0 < 256) : b0 >>> 2 < 64 := by
  rw [shr2_eq b0 h]; omega

theorem idxB (b0 b1 : Nat) (h0 : b0 < 256) (h1 : b1 < 256) :
    ((b0 &&& 0x03) <<< 4) ||| (b1 >>> 4) < 64 := by
  rw [mask3_eq b0 h0, shr4_eq b1 h1, or_shl4 _ (by omega) _ (by omega)]; omega

theorem idxC (b1 b2 : Nat) (h1 : b1 < 256) (h2 : b2 < 256) :
    ((b1 &&& 0x0f) <<< 2) ||| (b2 >>> 6) < 64 := by
  rw [mask15_eq b1 h1, shr6_eq b2 h2, or_shl2 _ (by omega) _ (by omega)]; omega

theorem idxD (b2 : Nat) (h : b2 < 256) : b2 &&& 0x3f < 64 := by
  rw [mask63_eq b2 h]; omega

/-- Every character the encoder emits is an alphabet character or =. -/
theorem encode_mem :
    ∀ (x : List Nat), (∀ b ∈ x, b < 256) →
      ∀ c ∈ base64_encode x, c ∈ ('=' :: B64_ALPHABET)
  | [], _, c, hc => by simp [base64_encode] at hc
  | [b0], h, c, hc => by
    have h0 := h b0 (by simp)
    have hc' : c ∈ encodeChunk [b0] := hc
    have hB : (b0 &&& 0x03) <<< 4 < 64 := by
      have := idxB b0 0 h0 (by omega); simpa using this
    simp [encodeChunk] at hc'
    rcases hc' with rfl | rfl | rfl
    · exact List.mem_cons_of_mem _ (alpha_mem _ (idxA b0 h0))
    · exact List.mem_cons_of_mem _ (alpha_mem _ hB)
    · simp
  | [b0, b1], h, c, hc => by
    have h0 := h b0 (by simp)
    have h1 := h b1 (by simp)
    have hc' : c ∈ encodeChunk [b0, b1] := hc
    have hC : (b1 &&& 0x0f) <<< 2 < 64 := by
      have := idxC b1 0 h1 (by omega); simpa using this
    simp [encodeChunk] at hc'
    rcases hc' with rfl | rfl | rfl | rfl
    · exact List.mem_cons_of_mem _ (alpha_mem _ (idxA b0 h0))
    · exact List.mem_cons_of_mem _ (alpha_mem _ (idxB b0 b1 h0 h1))
    · exact List.mem_cons_of_mem _ (alpha_mem _ hC)
    · simp
  | b0 :: b1 :: b2 :: rest, h, c, hc => by
    have h0 := h b0 (by simp)
    have h1 := h b1 (by simp)
    have h2 := h b2 (by simp)
    have hc' : c ∈ encodeChunk [b0, b1, b2] ++ base64_encode rest := hc
    rw [List.mem_append] at hc'
    rcases hc' with hc' | hc'
    · simp [encodeChunk] at hc'
      rcases hc' with rfl | rfl | rfl | rfl
      · exact List.mem_cons_of_mem _ (alpha_mem _ (idxA b0 h0))
      · exact List.mem_cons_of_mem _ (alpha_mem _ (idxB b0 b1 h0 h1))
      · exact List.mem_cons_of_mem _ (alpha_mem _ (idxC b1 b2 h1 h2))
      · exact List.mem_cons_of_mem _ (alpha_mem _ (idxD b2 h2))
    · exact encode_mem rest (fun b hb => h b (by simp [hb])) c hc'
termination_by x => x.length

theorem padded_not_ws : ∀ c ∈ ('=' :: B64_ALPHABET),
    isRustWs c = false ∧ c ≠ '\n' ∧ c ≠ '\r' := by decide

/-- The encoder always emits a multiple of four characters. -/
theorem encode_len : ∀ (x : List Nat), (base64_encode x).length % 4 = 0
  | [] => rfl
  | [b0] => by simp [base64_encode, encodeChunk]
  | [b0, b1] => by simp [base64_encode, encodeChunk]
  | b0 :: b1 :: b2 :: rest => by
    show (encodeChunk [b0, b1, b2] ++ base64_encode rest).length % 4 = 0
    have ih := encode_len rest
    simp only [encodeChunk, List.length_append]
    norm_num
    omega
termination_by x => x.length

theorem dropWhile_no (p : Char → Bool) (l : List Char)
    (h : ∀ c ∈ l, p c = false) : l.dropWhile p = l := by
  cases l with
  | nil => rfl
  | cons a t => simp [List.dropWhile, h a (by simp)]

theorem rustTrim_no_ws (l : List Char) (h : ∀ c ∈ l, isRustWs c = false) :
    rustTrim l = l := by
  unfold rustTrim
  rw [dropWhile_no _ _ h, dropWhile_no _ _ (fun c hc => h c (by simpa using hc)),
    List.reverse_reverse]

theorem encode_ne_nil (b : Nat) (t : List Nat) : base64_encode (b :: t) ≠ [] := by
  match t with
  | [] => simp [base64_encode, encodeChunk]
  | [b1] => simp [base64_encode, encodeChunk]
  | b1 :: b2 :: rest =>
    show encodeChunk [b, b1, b2] ++ base64_encode rest ≠ []
    simp [encodeChunk]

/--
CLAIM C9.  Base64 round-trip of the hand-rolled wire codec: for every byte
sequence x, base64_decode (base64_encode x) succeeds and returns x, and
base64_encode produces standard base64 with = padding: its output length is
a multiple of 4 and every output character is in the standard alphabet or
is the padding character =.
-/
theorem base64_roundtrip (x : List Nat) (h : ∀ b ∈ x, b < 256) :
    base64_decode (base64_encode x) = Except.ok x ∧
    (base64_encode x).length % 4 = 0 ∧
    ∀ c ∈ base64_encode x, c ∈ B64_ALPHABET ∨ c = '=' := by
  have hmem := encode_mem x h
  have hnws : ∀ c ∈ base64_encode x, isRustWs c = false :=
    fun c hc => (padded_not_ws c (hmem c hc)).1
  refine ⟨?_, encode_len x, ?_⟩
  · unfold base64_decode
    rw [rustTrim_no_ws _ hnws]
    cases x with
    | nil => rfl
    | cons b t =>
      rw [if_neg (by simp [encode_ne_nil b t])]
      rw [List.filter_eq_self.mpr (fun c hc => by
        have := padded_not_ws c (hmem c hc)
        simp [this.2.1, this.2.2])]
      rw [if_neg (by simp [encode_len (b :: t)])]
      exact decode_encodeChunks (b :: t) h
  · intro c hc
    have := hmem c hc
    simp at this
    tauto

/-- Witness for C9 at the concrete byte sequence [104, 105, 255, 0, 7]. -/
theorem base64_roundtrip_witness :
    (∀ b ∈ [104, 105, 255, 0, 7], b < 256) ∧
    (base64_decode (base64_encode [104, 105, 255, 0, 7]) =
        Except.ok [104, 105, 255, 0, 7] ∧
      (base64_encode [104, 105, 255, 0, 7]).length % 4 = 0 ∧
      ∀ c ∈ base64_encode [104, 105, 255, 0, 7], c ∈ B64_ALPHABET ∨ c = '=') :=
  ⟨by decide, base64_roundtrip [104, 105, 255, 0, 7] (by decide)⟩

end Wire

namespace Store

/-- In a list whose key is strictly increasing, searching the reversed list
returns the element with the greatest key among those satisfying the
predicate. -/
theorem find_reverse_max {α : Type} (key : α → Nat) (p : α → Bool) :
    ∀ (l : List α), l.Pairwise (fun a b => key a < key b) →
      ∀ u, l.reverse.find? p = some u →
        u ∈ l ∧ p u = true ∧ ∀ v ∈ l, p v = true → key v ≤ key u := by
  intro l
  induction l using List.reverseRecOn with
  | nil => intro _ u hu; simp at hu
  | append_singleton l a ih =>
    intro hp u hu
    rw [List.reverse_append, List.reverse_singleton, List.singleton_append] at hu
    rw [List.pairwise_append] at hp
    obtain ⟨hpl, -, hcross⟩ := hp
    by_cases hpa : p a
    · rw [List.find?_cons_of_pos _ hpa] at hu
      obtain rfl : a = u := by simpa using hu
      refine ⟨by simp, hpa, ?_⟩
      intro v hv _
      rcases List.mem_append.mp hv with hv | hv
      · exact Nat.le_of_lt (hcross v hv a (by simp))
      · obtain rfl : v = a := by simpa using hv
        exact Nat.le_refl _
    · rw [List.find?_cons_of_neg _ hpa] at hu
      obtain ⟨hmem, hpu, hmax⟩ := ih hpl u hu
      refine ⟨List.mem_append.mpr (Or.inl hmem), hpu, ?_⟩
      intro v hv hpv
      rcases List.mem_append.mp hv with hv | hv
      · exact hmax v hv hpv
      · obtain rfl : v = a := by simpa using hv
        exact absurd hpv hpa

/--
CLAIM C3 (counterexample).  In the store holding the user block "ask"
(id 1) followed by the assistant block "answer" (id 2) in journal 0,
fork_block on the assistant block yields a new block whose content is
"answer" — the content of the assistant source itself — although the only
(hence nearest) preceding user block of the journal has content "ask", so
the fork's content does not equal the nearest preceding user block's
content as the claim requires.
-/
theorem fork_assistant_copies_source_content :
    (get_block c3State 2 = Except.ok c3AsstBlock) ∧
    (fork_block c3State 2).map (fun p => p.1.content) = Except.ok "answer" ∧
    ((get_blocks_for_journal c3State 0).filter
        (fun b => decide (b.block_type = BlockType.user ∧ b.created_at < 2))).map
      (fun b => b.content) = ["ask"] ∧
    ("answer" : String) ≠ "ask" := by
  refine ⟨by decide, by decide, by decide, by decide⟩

/--
CLAIM C3 (amended).  For any existing block b, fork_block(b) produces a new
block with parent_id = forked_from_id = b.id, of type user, whose content
equals b's own content — for user sources and assistant sources alike.
-/
theorem fork_block_spec (st : StoreState) (bid : Nat) (orig : Block)
    (hget : get_block st bid = Except.ok orig) :
    ∃ blk st', fork_block st bid = Except.ok (blk, st') ∧
      blk.block_type = BlockType.user ∧
      blk.content = orig.content ∧
      blk.parent_id = some bid ∧
      blk.forked_from_id = some bid ∧
      blk.journal_id = orig.journal_id ∧
      st'.blocks = st.blocks ++ [blk] := by
  refine ⟨(create_block_with_lineage st orig.journal_id BlockType.user
      orig.content (some bid) (some bid)).1,
    (create_block_with_lineage st orig.journal_id BlockType.user
      orig.content (some bid) (some bid)).2,
    ?_, rfl, rfl, rfl, rfl, rfl, rfl⟩
  unfold fork_block
  rw [hget]
  rfl

/-- Witness for the amended C3 at the user block of c3State. -/
theorem fork_block_spec_witness :
    (get_block c3State 1 = Except.ok c3UserBlock) ∧
    (∃ blk st', fork_block c3State 1 = Except.ok (blk, st') ∧
      blk.block_type = BlockType.user ∧
      blk.content = c3UserBlock.content ∧
      blk.parent_id = some 1 ∧
      blk.forked_from_id = some 1 ∧
      blk.journal_id = c3UserBlock.journal_id ∧
      st'.blocks = c3State.blocks ++ [blk]) :=
  ⟨by decide, fork_block_spec c3State 1 c3UserBlock (by decide)⟩

end Store

namespace Store

/--
CLAIM C4.  For an existing assistant block b, rerun_block selects the user
block of the same journal with the latest creation time strictly earlier
than b's; if no such user block exists it fails with a not-found error,
otherwise it creates a new user block carrying that user block's content
with parent_id = forked_from_id = b.id.  For a user block the result is the
same as fork_block.
-/
theorem rerun_block_spec (st : StoreState) (bid : Nat) (orig : Block)
    (hsorted : StoreSorted st) (hget : get_block st bid = Except.ok orig) :
    (orig.block_type = BlockType.user → rerun_block st bid = fork_block st bid) ∧
    (orig.block_type = BlockType.assistant →
      ((∀ v ∈ get_blocks_for_journal st orig.journal_id,
          ¬(v.block_type = BlockType.user ∧ v.created_at < orig.created_at)) →
        rerun_block st bid =
          Except.error (AppError.notFound "No preceding user block found")) ∧
      (∀ w ∈ get_blocks_for_journal st orig.journal_id,
          w.block_type = BlockType.user → w.created_at < orig.created_at →
        ∃ u blk st',
          u ∈ get_blocks_for_journal st orig.journal_id ∧
          u.block_type = BlockType.user ∧
          u.created_at < orig.created_at ∧
          (∀ v ∈ get_blocks_for_journal st orig.journal_id,
            v.block_type = BlockType.user → v.created_at < orig.created_at →
            v.created_at ≤ u.created_at) ∧
          rerun_block st bid = Except.ok (blk, st') ∧
          blk.block_type = BlockType.user ∧
          blk.content = u.content ∧
          blk.parent_id = some bid ∧
          blk.forked_from_id = some bid ∧
          st'.blocks = st.blocks ++ [blk])) := by
  constructor
  · intro hu
    unfold rerun_block fork_block
    rw [hget]
    simp only [hu]
    rfl
  · intro ha
    have hps : (get_blocks_for_journal st orig.journal_id).Pairwise
        (fun a b => a.created_at < b.created_at) :=
      List.Pairwise.sublist (List.filter_sublist _) hsorted
    constructor
    · intro hnone
      have hfind : (get_blocks_for_journal st orig.journal_id).reverse.find?
          (fun b => decide (b.block_type = BlockType.user ∧
            b.created_at < orig.created_at)) = none := by
        rw [List.find?_eq_none]
        intro x hx
        simpa using hnone x (List.mem_reverse.mp hx)
      unfold rerun_block
      rw [hget]
      simp only [ha, hfind]
    · intro w hw hwu hwt
      cases hfind : (get_blocks_for_journal st orig.journal_id).reverse.find?
          (fun b => decide (b.block_type = BlockType.user ∧
            b.created_at < orig.created_at)) with
      | none =>
        exfalso
        rw [List.find?_eq_none] at hfind
        exact hfind w (List.mem_reverse.mpr hw) (by simp [hwu, hwt])
      | some u =>
        obtain ⟨humem, hpu, hmax⟩ :=
          find_reverse_max (fun b => b.created_at) _ _ hps u hfind
        rw [decide_eq_true_eq] at hpu
        refine ⟨u,
          (create_block_with_lineage st orig.journal_id BlockType.user
            u.content (some bid) (some bid)).1,
          (create_block_with_lineage st orig.journal_id BlockType.user
            u.content (some bid) (some bid)).2,
          humem, hpu.1, hpu.2, ?_, ?_, rfl, rfl, rfl, rfl, rfl⟩
        · intro v hv h1 h2
          exact hmax v hv (by simp [h1, h2])
        · unfold rerun_block
          rw [hget]
          simp only [ha, hfind]

/-- Witness for C4 at the assistant block of c3State. -/
theorem rerun_block_spec_witness :
    (StoreSorted c3State ∧ get_block c3State 2 = Except.ok c3AsstBlock) ∧
    ((c3AsstBlock.block_type = BlockType.user →
        rerun_block c3State 2 = fork_block c3State 2) ∧
     (c3AsstBlock.block_type = BlockType.assistant →
      ((∀ v ∈ get_blocks_for_journal c3State c3AsstBlock.journal_id,
          ¬(v.block_type = BlockType.user ∧
            v.created_at < c3AsstBlock.created_at)) →
        rerun_block c3State 2 =
          Except.error (AppError.notFound "No preceding user block found")) ∧
      (∀ w ∈ get_blocks_for_journal c3State c3AsstBlock.journal_id,
          w.block_type = BlockType.user → w.created_at < c3AsstBlock.created_at →
        ∃ u blk st',
          u ∈ get_blocks_for_journal c3State c3AsstBlock.journal_id ∧
          u.block_type = BlockType.user ∧
          u.created_at < c3AsstBlock.created_at ∧
          (∀ v ∈ get_blocks_for_journal c3State c3AsstBlock.journal_id,
            v.block_type = BlockType.user → v.created_at < c3AsstBlock.created_at →
            v.created_at ≤ u.created_at) ∧
          rerun_block c3State 2 = Except.ok (blk, st') ∧
          blk.block_type = BlockType.user ∧
          blk.content = u.content ∧
          blk.parent_id = some 2 ∧
          blk.forked_from_id = some 2 ∧
          st'.blocks = c3State.blocks ++ [blk]))) :=
  ⟨⟨by decide, by decide⟩,
    rerun_block_spec c3State 2 c3AsstBlock (by decide) (by decide)⟩

end Store

namespace Deleg

theorem mapUpd_self {α : Type} (m : Nat → α) (k : Nat) (v : α) : mapUpd m k v k = v := by
  simp [mapUpd]

theorem mapUpd_ne {α : Type} (m : Nat → α) (k q : Nat) (v : α) (h : q ≠ k) :
    mapUpd m k v q = m q := by
  simp [mapUpd, h]

theorem count_filter_self (l : List Nat) (x : Nat) :
    (l.filter (fun id => id ≠ x)).count x = 0 := by
  rw [List.count_eq_zero]
  intro hx
  have := List.of_mem_filter hx
  simp at this

theorem count_filter_ne (l : List Nat) (x y : Nat) (h : y ≠ x) :
    (l.filter (fun id => id ≠ x)).count y = l.count y :=
  List.count_filter (by simp [h])

theorem count_snoc_self (l : List Nat) (x : Nat) :
    (l ++ [x]).count x = l.count x + 1 := by
  simp

theorem count_snoc_ne (l : List Nat) (x y : Nat) (h : y ≠ x) :
    (l ++ [x]).count y = l.count y := by
  rw [List.count_append, List.count_singleton]
  simp [Ne.symm h]

/-- An operation that leaves the work items, approvals, work queues and
(weakly) the id supply untouched preserves the invariant. -/
theorem inv_of_eq_fields (st st' : ManagerState)
    (hwi : st'.work_items = st.work_items)
    (hap : st'.approvals = st.approvals)
    (hwq : st'.work_queues = st.work_queues)
    (hni : st.nextId ≤ st'.nextId)
    (h : Inv st) : Inv st' := by
  constructor
  · intro wid item hw; exact h.key_id wid item (by rw [← hwi]; exact hw)
  · intro k hk; rw [hwi]; exact h.fresh_item k (Nat.le_trans hni hk)
  · intro k hk; rw [hap]; exact h.fresh_approval k (Nat.le_trans hni hk)
  · intro pid wid hw; rw [hwq]; exact h.queue_known pid wid (by rw [← hwi]; exact hw)
  · intro wid item hw; rw [hwq]; exact h.queue_count wid item (by rw [← hwi]; exact hw)
  · intro wid item pid hw hp
    rw [hwq]; exact h.queue_other wid item pid (by rw [← hwi]; exact hw) hp
  · intro aid a ha hp
    obtain ⟨item, h1, h2, h3⟩ := h.pending_approval aid a (by rw [← hap]; exact ha) hp
    exact ⟨item, by rw [hwi]; exact h1, h2, h3⟩
  · intro aid a bid b ha hb hpa hpb hw
    exact h.pending_unique aid a bid b (by rw [← hap]; exact ha)
      (by rw [← hap]; exact hb) hpa hpb hw

theorem inv_register (st : ManagerState) (p : Participant) (h : Inv st) :
    Inv (register_participant st p).2 :=
  inv_of_eq_fields st _ rfl rfl rfl (Nat.le_refl _) h

theorem inv_registerWith (st : ManagerState) (p : Participant) (caps : CapabilitySet)
    (h : Inv st) : Inv (register_participant_with_capabilities st p caps).2 :=
  inv_of_eq_fields st _ rfl rfl rfl (Nat.le_refl _) h

theorem inv_unregister (st : ManagerState) (id : Nat) (h : Inv st) :
    Inv (unregister_participant st id).2 :=
  inv_of_eq_fields st _ rfl rfl rfl (Nat.le_refl _) h

theorem inv_updateCaps (st : ManagerState) (pid : Nat) (caps : CapabilitySet)
    (h : Inv st) : Inv (update_capabilities st pid caps).2 := by
  unfold update_capabilities
  cases st.participants pid with
  | none => exact h
  | some participant => exact inv_of_eq_fields st _ rfl rfl rfl (Nat.le_refl _) h

theorem inv_setAccepting (st : ManagerState) (pid : Nat) (b : Bool)
    (h : Inv st) : Inv (set_accepting_work st pid b).2 := by
  unfold set_accepting_work
  cases st.participants pid with
  | none => exact h
  | some participant => exact inv_of_eq_fields st _ rfl rfl rfl (Nat.le_refl _) h

/-- A stored work item's key is below the fresh-id supply. -/
theorem lt_nextId_of_item {st : ManagerState} {wid : Nat} {item : WorkItem}
    (h : Inv st) (hw : st.work_items wid = some item) : wid < st.nextId := by
  by_contra hn
  push_neg at hn
  rw [h.fresh_item wid hn] at hw
  exact Option.noConfusion hw

/-- A stored approval's key is below the fresh-id supply. -/
theorem lt_nextId_of_approval {st : ManagerState} {aid : Nat} {a : ApprovalRequest}
    (h : Inv st) (ha : st.approvals aid = some a) : aid < st.nextId := by
  by_contra hn
  push_neg at hn
  rw [h.fresh_approval aid hn] at ha
  exact Option.noConfusion ha

/-- Field values of the delegate builder chain. -/
theorem mkDelegatedItem_fields (id j : Nat) (d : String) (del asg now : Nat)
    (pr : Option WorkPriority) (ra : Bool) (ap : Option Nat) :
    (mkDelegatedItem id j d del asg now pr ra ap).id = id ∧
    (mkDelegatedItem id j d del asg now pr ra ap).status = WorkItemStatus.pending ∧
    (mkDelegatedItem id j d del asg now pr ra ap).assignee_id = asg ∧
    (mkDelegatedItem id j d del asg now pr ra ap).delegator_id = del ∧
    (mkDelegatedItem id j d del asg now pr ra ap).journal_id = j ∧
    (mkDelegatedItem id j d del asg now pr ra ap).description = d ∧
    (mkDelegatedItem id j d del asg now pr ra ap).requires_approval = ra ∧
    (mkDelegatedItem id j d del asg now pr ra ap).approver_id =
      (if ra then ap else none) := by
  cases pr <;> cases ra <;>
    simp [mkDelegatedItem, WorkItem.new, WorkItem.with_priority, WorkItem.require_approval]

theorem inv_delegate_success (st st' : ManagerState) (j : Nat) (d : String)
    (del asg : Nat) (pr : Option WorkPriority) (ra : Bool) (ap : Option Nat)
    (hwi : st'.work_items = mapUpd st.work_items
      (mkDelegatedItem st.nextId j d del asg st.clock pr ra ap).id
      (some (mkDelegatedItem st.nextId j d del asg st.clock pr ra ap)))
    (hap : st'.approvals = st.approvals)
    (hwq : st'.work_queues = mapUpd st.work_queues asg
      (st.work_queues asg ++
        [(mkDelegatedItem st.nextId j d del asg st.clock pr ra ap).id]))
    (hni : st'.nextId = st.nextId + 1)
    (h : Inv st) : Inv st' := by
  obtain ⟨hid, hstat, hasg, -, -, -, -, -⟩ :=
    mkDelegatedItem_fields st.nextId j d del asg st.clock pr ra ap
  constructor
  · -- key_id
    intro wid item hwit
    rw [hwi] at hwit
    by_cases hq : wid = (mkDelegatedItem st.nextId j d del asg st.clock pr ra ap).id
    · rw [hq, mapUpd_self] at hwit
      cases hwit
      rw [hq]
    · rw [mapUpd_ne _ _ _ _ hq] at hwit
      exact h.key_id wid item hwit
  · -- fresh_item
    intro k hk
    rw [hni] at hk
    rw [hwi]
    have hkne : k ≠ (mkDelegatedItem st.nextId j d del asg st.clock pr ra ap).id := by
      rw [hid]; omega
    rw [mapUpd_ne _ _ _ _ hkne]
    exact h.fresh_item k (by omega)
  · -- fresh_approval
    intro k hk
    rw [hni] at hk
    rw [hap]
    exact h.fresh_approval k (by omega)
  · -- queue_known
    intro pid wid hwnone
    rw [hwi] at hwnone
    rw [hwq]
    have hwid : wid ≠ (mkDelegatedItem st.nextId j d del asg st.clock pr ra ap).id := by
      intro he
      rw [he, mapUpd_self] at hwnone
      exact Option.noConfusion hwnone
    rw [mapUpd_ne _ _ _ _ hwid] at hwnone
    by_cases hpq : pid = asg
    · rw [hpq, mapUpd_self, count_snoc_ne _ _ _ hwid]
      exact h.queue_known asg wid hwnone
    · rw [mapUpd_ne _ _ _ _ hpq]
      exact h.queue_known pid wid hwnone
  · -- queue_count
    intro wid item hwit
    rw [hwi] at hwit
    rw [hwq]
    by_cases hq : wid = (mkDelegatedItem st.nextId j d del asg st.clock pr ra ap).id
    · rw [hq, mapUpd_self] at hwit
      cases hwit
      rw [hasg, mapUpd_self, hstat]
      simp only [inQueueStatus, if_true]
      rw [hq, count_snoc_self]
      have hzero : (st.work_queues asg).count
          (mkDelegatedItem st.nextId j d del asg st.clock pr ra ap).id = 0 := by
        rw [hid]
        exact h.queue_known asg st.nextId (h.fresh_item st.nextId (Nat.le_refl _))
      omega
    · rw [mapUpd_ne _ _ _ _ hq] at hwit
      by_cases hpq : item.assignee_id = asg
      · rw [hpq, mapUpd_self, count_snoc_ne _ _ _ hq]
        have := h.queue_count wid item hwit
        rw [hpq] at this
        exact this
      · rw [mapUpd_ne _ _ _ _ hpq]
        exact h.queue_count wid item hwit
  · -- queue_other
    intro wid item pid hwit hpother
    rw [hwi] at hwit
    rw [hwq]
    by_cases hq : wid = (mkDelegatedItem st.nextId j d del asg st.clock pr ra ap).id
    · rw [hq, mapUpd_self] at hwit
      cases hwit
      rw [hasg] at hpother
      have hpq : pid ≠ asg := hpother
      rw [mapUpd_ne _ _ _ _ hpq, hq, hid]
      exact h.queue_known pid st.nextId (h.fresh_item st.nextId (Nat.le_refl _))
    · rw [mapUpd_ne _ _ _ _ hq] at hwit
      by_cases hpq : pid = asg
      · rw [hpq, mapUpd_self, count_snoc_ne _ _ _ hq]
        exact h.queue_other wid item asg hwit (by rw [← hpq]; exact hpother)
      · rw [mapUpd_ne _ _ _ _ hpq]
        exact h.queue_other wid item pid hwit hpother
  · -- pending_approval
    intro aid a ha hp
    rw [hap] at ha
    rw [hwi]
    obtain ⟨item, h1, h2, h3⟩ := h.pending_approval aid a ha hp
    have hne : a.work_item_id ≠
        (mkDelegatedItem st.nextId j d del asg st.clock pr ra ap).id := by
      rw [hid]
      intro he
      rw [he, h.fresh_item st.nextId (Nat.le_refl _)] at h1
      exact Option.noConfusion h1
    exact ⟨item, by rw [mapUpd_ne _ _ _ _ hne]; exact h1, h2, h3⟩
  · -- pending_unique
    intro aid a bid b ha hb hpa hpb hw
    rw [hap] at ha hb
    exact h.pending_unique aid a bid b ha hb hpa hpb hw

theorem inv_delegate (st : ManagerState) (j : Nat) (d : String) (del asg : Nat)
    (pr : Option WorkPriority) (ra : Bool) (ap : Option Nat) (h : Inv st) :
    Inv (delegate st j d del asg pr ra ap).2 := by
  unfold delegate
  cases st.participants del with
  | none => exact h
  | some delegator =>
    cases hcd : delegator.can_delegate with
    | false => simp only [hcd]; exact h
    | true =>
      simp only [hcd]
      cases st.participants asg with
      | none => exact h
      | some assignee =>
        cases hcr : assignee.can_receive_work with
        | false => simp only [hcr]; exact h
        | true =>
          simp only [hcr]
          exact inv_delegate_success st _ j d del asg pr ra ap rfl rfl rfl rfl h

theorem inv_accept_success (st st' : ManagerState) (wid : Nat) (item : WorkItem)
    (hitem : st.work_items wid = some item)
    (hpend0 : item.status = WorkItemStatus.pending)
    (hwi : st'.work_items = mapUpd st.work_items wid
      (some { item with status := WorkItemStatus.inProgress, updated_at := st.clock }))
    (hap : st'.approvals = st.approvals)
    (hwq : st'.work_queues = st.work_queues)
    (hni : st'.nextId = st.nextId)
    (h : Inv st) : Inv st' := by
  constructor
  · intro w i hw
    rw [hwi] at hw
    by_cases hq : w = wid
    · rw [hq, mapUpd_self] at hw
      cases hw
      rw [hq]
      exact h.key_id wid item hitem
    · rw [mapUpd_ne _ _ _ _ hq] at hw
      exact h.key_id w i hw
  · intro k hk
    rw [hni] at hk
    rw [hwi]
    have hkne : k ≠ wid := by
      intro he
      have := lt_nextId_of_item h hitem
      omega
    rw [mapUpd_ne _ _ _ _ hkne]
    exact h.fresh_item k hk
  · intro k hk
    rw [hni] at hk
    rw [hap]
    exact h.fresh_approval k hk
  · intro pid w hw
    rw [hwi] at hw
    rw [hwq]
    by_cases hq : w = wid
    · rw [hq, mapUpd_self] at hw
      exact Option.noConfusion hw
    · rw [mapUpd_ne _ _ _ _ hq] at hw
      exact h.queue_known pid w hw
  · intro w i hw
    rw [hwi] at hw
    rw [hwq]
    by_cases hq : w = wid
    · rw [hq, mapUpd_self] at hw
      cases hw
      rw [hq]
      have hold := h.queue_count wid item hitem
      rw [hpend0] at hold
      simpa [inQueueStatus] using hold
    · rw [mapUpd_ne _ _ _ _ hq] at hw
      exact h.queue_count w i hw
  · intro w i pid hw hp
    rw [hwi] at hw
    rw [hwq]
    by_cases hq : w = wid
    · rw [hq, mapUpd_self] at hw
      cases hw
      rw [hq]
      exact h.queue_other wid item pid hitem (by simpa using hp)
    · rw [mapUpd_ne _ _ _ _ hq] at hw
      exact h.queue_other w i pid hw hp
  · intro aid a ha hpa
    rw [hap] at ha
    rw [hwi]
    obtain ⟨i0, h1, h2, h3⟩ := h.pending_approval aid a ha hpa
    by_cases hq : a.work_item_id = wid
    · exfalso
      rw [hq, hitem] at h1
      cases h1
      rcases h3 with h3 | h3 <;> rw [hpend0] at h3 <;> exact WorkItemStatus.noConfusion h3
    · exact ⟨i0, by rw [mapUpd_ne _ _ _ _ hq]; exact h1, h2, h3⟩
  · intro aid a bid b ha hb hpa hpb hww
    rw [hap] at ha hb
    exact h.pending_unique aid a bid b ha hb hpa hpb hww

theorem inv_accept (st : ManagerState) (wid acceptor : Nat) (h : Inv st) :
    Inv (accept_work st wid acceptor).2 := by
  unfold accept_work
  split
  · exact h
  next item heq =>
    split
    · exact h
    · split
      · exact h
      next item' hacc =>
        unfold WorkItem.accept at hacc
        by_cases hst : item.status ≠ WorkItemStatus.pending
        · rw [if_pos hst] at hacc
          exact Except.noConfusion hacc
        · rw [if_neg hst] at hacc
          push_neg at hst
          cases hacc
          exact inv_accept_success st _ wid item heq hst rfl rfl rfl rfl h

theorem inv_decline_success (st st' : ManagerState) (wid decliner : Nat)
    (item : WorkItem)
    (hitem : st.work_items wid = some item)
    (hpend0 : item.status = WorkItemStatus.pending)
    (hasg : item.assignee_id = decliner)
    (hwi : st'.work_items = mapUpd st.work_items wid
      (some { item with status := WorkItemStatus.declined, updated_at := st.clock }))
    (hap : st'.approvals = st.approvals)
    (hwq : st'.work_queues = mapUpd st.work_queues decliner
      ((st.work_queues decliner).filter (fun id => id ≠ wid)))
    (hni : st'.nextId = st.nextId)
    (h : Inv st) : Inv st' := by
  constructor
  · intro w i hw
    rw [hwi] at hw
    by_cases hq : w = wid
    · rw [hq, mapUpd_self] at hw
      cases hw
      rw [hq]
      exact h.key_id wid item hitem
    · rw [mapUpd_ne _ _ _ _ hq] at hw
      exact h.key_id w i hw
  · intro k hk
    rw [hni] at hk
    rw [hwi]
    have hkne : k ≠ wid := by
      intro he
      have := lt_nextId_of_item h hitem
      omega
    rw [mapUpd_ne _ _ _ _ hkne]
    exact h.fresh_item k hk
  · intro k hk
    rw [hni] at hk
    rw [hap]
    exact h.fresh_approval k hk
  · intro pid w hw
    rw [hwi] at hw
    rw [hwq]
    by_cases hq : w = wid
    · rw [hq, mapUpd_self] at hw
      exact Option.noConfusion hw
    · rw [mapUpd_ne _ _ _ _ hq] at hw
      by_cases hpq : pid = decliner
      · rw [hpq, mapUpd_self, count_filter_ne _ _ _ hq]
        exact h.queue_known decliner w hw
      · rw [mapUpd_ne _ _ _ _ hpq]
        exact h.queue_known pid w hw
  · intro w i hw
    rw [hwi] at hw
    rw [hwq]
    by_cases hq : w = wid
    · rw [hq, mapUpd_self] at hw
      cases hw
      rw [hq]
      show ((mapUpd st.work_queues decliner _) item.assignee_id).count wid = _
      rw [hasg, mapUpd_self, count_filter_self]
      rfl
    · rw [mapUpd_ne _ _ _ _ hq] at hw
      by_cases hpq : i.assignee_id = decliner
      · rw [hpq, mapUpd_self, count_filter_ne _ _ _ hq]
        have := h.queue_count w i hw
        rw [hpq] at this
        exact this
      · rw [mapUpd_ne _ _ _ _ hpq]
        exact h.queue_count w i hw
  · intro w i pid hw hp
    rw [hwi] at hw
    rw [hwq]
    by_cases hq : w = wid
    · rw [hq, mapUpd_self] at hw
      cases hw
      rw [hq]
      have hp' : pid ≠ decliner := by
        rw [← hasg]
        simpa using hp
      rw [mapUpd_ne _ _ _ _ hp']
      exact h.queue_other wid item pid hitem (by simpa using hp)
    · rw [mapUpd_ne _ _ _ _ hq] at hw
      by_cases hpq : pid = decliner
      · rw [hpq, mapUpd_self, count_filter_ne _ _ _ hq]
        exact h.queue_other w i decliner hw (by rw [← hpq]; exact hp)
      · rw [mapUpd_ne _ _ _ _ hpq]
        exact h.queue_other w i pid hw hp
  · intro aid a ha hpa
    rw [hap] at ha
    rw [hwi]
    obtain ⟨i0, h1, h2, h3⟩ := h.pending_approval aid a ha hpa
    by_cases hq : a.work_item_id = wid
    · exfalso
      rw [hq, hitem] at h1
      cases h1
      rcases h3 with h3 | h3 <;> rw [hpend0] at h3 <;> exact WorkItemStatus.noConfusion h3
    · exact ⟨i0, by rw [mapUpd_ne _ _ _ _ hq]; exact h1, h2, h3⟩
  · intro aid a bid b ha hb hpa hpb hww
    rw [hap] at ha hb
    exact h.pending_unique aid a bid b ha hb hpa hpb hww

theorem inv_decline (st : ManagerState) (wid decliner : Nat) (h : Inv st) :
    Inv (decline_work st wid decliner).2 := by
  unfold decline_work
  split
  · exact h
  next item heq =>
    split
    · exact h
    next hne =>
      push_neg at hne
      split
      · exact h
      next item' hdec =>
        unfold WorkItem.decline at hdec
        by_cases hst : item.status ≠ WorkItemStatus.pending
        · rw [if_pos hst] at hdec
          exact Except.noConfusion hdec
        · rw [if_neg hst] at hdec
          push_neg at hst
          cases hdec
          exact inv_decline_success st _ wid decliner item heq hst hne rfl rfl rfl rfl h

theorem inv_submit_noapproval (st st' : ManagerState) (wid : Nat)
    (item item' : WorkItem)
    (hitem : st.work_items wid = some item)
    (hactive : item.status.is_active = true)
    (hid' : item'.id = item.id)
    (hasg' : item'.assignee_id = item.assignee_id)
    (hnq : inQueueStatus item'.status = false)
    (hwi : st'.work_items = mapUpd st.work_items wid (some item'))
    (hap : st'.approvals = st.approvals)
    (hwq : st'.work_queues = mapUpd st.work_queues item.assignee_id
      ((st.work_queues item.assignee_id).filter (fun id => id ≠ wid)))
    (hni : st'.nextId = st.nextId)
    (h : Inv st) : Inv st' := by
  constructor
  · intro w i hw
    rw [hwi] at hw
    by_cases hq : w = wid
    · rw [hq, mapUpd_self] at hw
      cases hw
      rw [hq, hid']
      exact h.key_id wid item hitem
    · rw [mapUpd_ne _ _ _ _ hq] at hw
      exact h.key_id w i hw
  · intro k hk
    rw [hni] at hk
    rw [hwi]
    have hkne : k ≠ wid := by
      intro he
      have := lt_nextId_of_item h hitem
      omega
    rw [mapUpd_ne _ _ _ _ hkne]
    exact h.fresh_item k hk
  · intro k hk
    rw [hni] at hk
    rw [hap]
    exact h.fresh_approval k hk
  · intro pid w hw
    rw [hwi] at hw
    rw [hwq]
    by_cases hq : w = wid
    · rw [hq, mapUpd_self] at hw
      exact Option.noConfusion hw
    · rw [mapUpd_ne _ _ _ _ hq] at hw
      by_cases hpq : pid = item.assignee_id
      · rw [hpq, mapUpd_self, count_filter_ne _ _ _ hq]
        exact h.queue_known _ w hw
      · rw [mapUpd_ne _ _ _ _ hpq]
        exact h.queue_known pid w hw
  · intro w i hw
    rw [hwi] at hw
    rw [hwq]
    by_cases hq : w = wid
    · rw [hq, mapUpd_self] at hw
      cases hw
      rw [hq, hnq, hasg', mapUpd_self, count_filter_self]
      rfl
    · rw [mapUpd_ne _ _ _ _ hq] at hw
      by_cases hpq : i.assignee_id = item.assignee_id
      · rw [hpq, mapUpd_self, count_filter_ne _ _ _ hq]
        have := h.queue_count w i hw
        rw [hpq] at this
        exact this
      · rw [mapUpd_ne _ _ _ _ hpq]
        exact h.queue_count w i hw
  · intro w i pid hw hp
    rw [hwi] at hw
    rw [hwq]
    by_cases hq : w = wid
    · rw [hq, mapUpd_self] at hw
      cases hw
      rw [hasg'] at hp
      rw [hq]
      by_cases hpq : pid = item.assignee_id
      · exact absurd hpq hp
      · rw [mapUpd_ne _ _ _ _ hpq]
        exact h.queue_other wid item pid hitem hp
    · rw [mapUpd_ne _ _ _ _ hq] at hw
      by_cases hpq : pid = item.assignee_id
      · rw [hpq, mapUpd_self, count_filter_ne _ _ _ hq]
        exact h.queue_other w i _ hw (by rw [← hpq]; exact hp)
      · rw [mapUpd_ne _ _ _ _ hpq]
        exact h.queue_other w i pid hw hp
  · intro aid a ha hpa
    rw [hap] at ha
    rw [hwi]
    obtain ⟨i0, h1, h2, h3⟩ := h.pending_approval aid a ha hpa
    by_cases hq : a.work_item_id = wid
    · exfalso
      rw [hq, hitem] at h1
      cases h1
      rcases h3 with h3 | h3 <;> rw [h3] at hactive <;> exact Bool.noConfusion hactive
    · exact ⟨i0, by rw [mapUpd_ne _ _ _ _ hq]; exact h1, h2, h3⟩
  · intro aid a bid b ha hb hpa hpb hww
    rw [hap] at ha hb
    exact h.pending_unique aid a bid b ha hb hpa hpb hww

theorem inv_submit_approval (st st' : ManagerState) (wid : Nat)
    (item item' : WorkItem)
    (hitem : st.work_items wid = some item)
    (hactive : item.status.is_active = true)
    (hid' : item'.id = item.id)
    (hasg' : item'.assignee_id = item.assignee_id)
    (hstB : item'.status = WorkItemStatus.awaitingApproval)
    (hwi : st'.work_items = mapUpd st.work_items wid (some item'))
    (hap : st'.approvals = mapUpd st.approvals st.nextId
      (some (ApprovalRequest.new st.nextId item' st.clock)))
    (hwq : st'.work_queues = mapUpd st.work_queues item.assignee_id
      ((st.work_queues item.assignee_id).filter (fun id => id ≠ wid)))
    (hni : st'.nextId = st.nextId + 1)
    (h : Inv st) : Inv st' := by
  have hvac : ∀ aid a, st.approvals aid = some a → a.status = ApprovalStatus.pending →
      a.work_item_id ≠ wid := by
    intro aid a ha hpa hq
    obtain ⟨i0, h1, h2, h3⟩ := h.pending_approval aid a ha hpa
    rw [hq, hitem] at h1
    cases h1
    rcases h3 with h3 | h3 <;> rw [h3] at hactive <;> exact Bool.noConfusion hactive
  have hkey : item.id = wid := h.key_id wid item hitem
  constructor
  · intro w i hw
    rw [hwi] at hw
    by_cases hq : w = wid
    · rw [hq, mapUpd_self] at hw
      cases hw
      rw [hq, hid']
      exact hkey
    · rw [mapUpd_ne _ _ _ _ hq] at hw
      exact h.key_id w i hw
  · intro k hk
    rw [hni] at hk
    rw [hwi]
    have hkne : k ≠ wid := by
      intro he
      have := lt_nextId_of_item h hitem
      omega
    rw [mapUpd_ne _ _ _ _ hkne]
    exact h.fresh_item k (by omega)
  · intro k hk
    rw [hni] at hk
    rw [hap]
    have hkne : k ≠ st.nextId := by omega
    rw [mapUpd_ne _ _ _ _ hkne]
    exact h.fresh_approval k (by omega)
  · intro pid w hw
    rw [hwi] at hw
    rw [hwq]
    by_cases hq : w = wid
    · rw [hq, mapUpd_self] at hw
      exact Option.noConfusion hw
    · rw [mapUpd_ne _ _ _ _ hq] at hw
      by_cases hpq : pid = item.assignee_id
      · rw [hpq, mapUpd_self, count_filter_ne _ _ _ hq]
        exact h.queue_known _ w hw
      · rw [mapUpd_ne _ _ _ _ hpq]
        exact h.queue_known pid w hw
  · intro w i hw
    rw [hwi] at hw
    rw [hwq]
    by_cases hq : w = wid
    · rw [hq, mapUpd_self] at hw
      cases hw
      rw [hq, hstB, hasg', mapUpd_self, count_filter_self]
      rfl
    · rw [mapUpd_ne _ _ _ _ hq] at hw
      by_cases hpq : i.assignee_id = item.assignee_id
      · rw [hpq, mapUpd_self, count_filter_ne _ _ _ hq]
        have := h.queue_count w i hw
        rw [hpq] at this
        exact this
      · rw [mapUpd_ne _ _ _ _ hpq]
        exact h.queue_count w i hw
  · intro w i pid hw hp
    rw [hwi] at hw
    rw [hwq]
    by_cases hq : w = wid
    · rw [hq, mapUpd_self] at hw
      cases hw
      rw [hasg'] at hp
      rw [hq]
      by_cases hpq : pid = item.assignee_id
      · exact absurd hpq hp
      · rw [mapUpd_ne _ _ _ _ hpq]
        exact h.queue_other wid item pid hitem hp
    · rw [mapUpd_ne _ _ _ _ hq] at hw
      by_cases hpq : pid = item.assignee_id
      · rw [hpq, mapUpd_self, count_filter_ne _ _ _ hq]
        exact h.queue_other w i _ hw (by rw [← hpq]; exact hp)
      · rw [mapUpd_ne _ _ _ _ hpq]
        exact h.queue_other w i pid hw hp
  · intro aid a ha hpa
    rw [hap] at ha
    rw [hwi]
    by_cases hq : aid = st.nextId
    · rw [hq, mapUpd_self] at ha
      cases ha
      refine ⟨item', ?_, rfl, Or.inl hstB⟩
      show mapUpd st.work_items wid (some item') item'.id = some item'
      rw [hid', hkey, mapUpd_self]
    · rw [mapUpd_ne _ _ _ _ hq] at ha
      obtain ⟨i0, h1, h2, h3⟩ := h.pending_approval aid a ha hpa
      have hne : a.work_item_id ≠ wid := hvac aid a ha hpa
      exact ⟨i0, by rw [mapUpd_ne _ _ _ _ hne]; exact h1, h2, h3⟩
  · intro aid a bid b ha hb hpa hpb hww
    rw [hap] at ha hb
    by_cases hqa : aid = st.nextId
    · by_cases hqb : bid = st.nextId
      · rw [hqa, hqb]
      · exfalso
        rw [hqa, mapUpd_self] at ha
        rw [mapUpd_ne _ _ _ _ hqb] at hb
        cases ha
        have hbne : b.work_item_id ≠ wid := hvac bid b hb hpb
        apply hbne
        rw [← hww]
        show item'.id = wid
        rw [hid']
        exact hkey
    · by_cases hqb : bid = st.nextId
      · exfalso
        rw [hqb, mapUpd_self] at hb
        rw [mapUpd_ne _ _ _ _ hqa] at ha
        cases hb
        have hane : a.work_item_id ≠ wid := hvac aid a ha hpa
        apply hane
        rw [hww]
        show item'.id = wid
        rw [hid']
        exact hkey
      · rw [mapUpd_ne _ _ _ _ hqa] at ha
        rw [mapUpd_ne _ _ _ _ hqb] at hb
        exact h.pending_unique aid a bid b ha hb hpa hpb hww

theorem inv_submit (st : ManagerState) (wid submitter : Nat) (result : String)
    (h : Inv st) : Inv (submit_work st wid submitter result).2 := by
  unfold submit_work
  split
  · exact h
  next item heq =>
    split
    · exact h
    next hne =>
      push_neg at hne
      split
      · exact h
      next item' hsub =>
        unfold WorkItem.submit_for_approval at hsub
        cases hact : item.status.is_active with
        | false =>
          rw [hact] at hsub
          simp at hsub
        | true =>
          rw [hact] at hsub
          simp only [Bool.not_true, Bool.false_eq_true, if_false] at hsub
          by_cases hra : item.requires_approval = true
          · simp only [hra, eq_self_iff_true, if_true] at hsub
            cases hsub
            simp only [hra, eq_self_iff_true, if_true]
            exact inv_submit_approval st _ wid item
              { item with
                requires_approval := true
                result := some result
                status := WorkItemStatus.awaitingApproval
                updated_at := st.clock }
              heq hact rfl rfl rfl rfl rfl (by rw [hne]) rfl h
          · have hra' : item.requires_approval = false := by simpa using hra
            simp only [hra', Bool.false_eq_true, if_false] at hsub
            cases hsub
            simp only [hra', Bool.false_eq_true, if_false]
            exact inv_submit_noapproval st _ wid item
              { item with
                requires_approval := false
                result := some result
                status := WorkItemStatus.approved
                updated_at := st.clock }
              heq hact rfl rfl rfl rfl rfl (by rw [hne]) rfl h

theorem inv_cancel_success (st st' : ManagerState) (wid : Nat) (item : WorkItem)
    (hitem : st.work_items wid = some item)
    (hwi : st'.work_items = mapUpd st.work_items wid
      (some { item with status := WorkItemStatus.cancelled, updated_at := st.clock }))
    (hap : st'.approvals = st.approvals)
    (hwq : st'.work_queues = mapUpd st.work_queues item.assignee_id
      ((st.work_queues item.assignee_id).filter (fun id => id ≠ wid)))
    (hni : st'.nextId = st.nextId)
    (h : Inv st) : Inv st' := by
  constructor
  · intro w i hw
    rw [hwi] at hw
    by_cases hq : w = wid
    · rw [hq, mapUpd_self] at hw
      cases hw
      rw [hq]
      exact h.key_id wid item hitem
    · rw [mapUpd_ne _ _ _ _ hq] at hw
      exact h.key_id w i hw
  · intro k hk
    rw [hni] at hk
    rw [hwi]
    have hkne : k ≠ wid := by
      intro he
      have := lt_nextId_of_item h hitem
      omega
    rw [mapUpd_ne _ _ _ _ hkne]
    exact h.fresh_item k hk
  · intro k hk
    rw [hni] at hk
    rw [hap]
    exact h.fresh_approval k hk
  · intro pid w hw
    rw [hwi] at hw
    rw [hwq]
    by_cases hq : w = wid
    · rw [hq, mapUpd_self] at hw
      exact Option.noConfusion hw
    · rw [mapUpd_ne _ _ _ _ hq] at hw
      by_cases hpq : pid = item.assignee_id
      · rw [hpq, mapUpd_self, count_filter_ne _ _ _ hq]
        exact h.queue_known _ w hw
      · rw [mapUpd_ne _ _ _ _ hpq]
        exact h.queue_known pid w hw
  · intro w i hw
    rw [hwi] at hw
    rw [hwq]
    by_cases hq : w = wid
    · rw [hq, mapUpd_self] at hw
      cases hw
      rw [hq]
      show ((mapUpd st.work_queues item.assignee_id _) item.assignee_id).count wid = _
      rw [mapUpd_self, count_filter_self]
      rfl
    · rw [mapUpd_ne _ _ _ _ hq] at hw
      by_cases hpq : i.assignee_id = item.assignee_id
      · rw [hpq, mapUpd_self, count_filter_ne _ _ _ hq]
        have := h.queue_count w i hw
        rw [hpq] at this
        exact this
      · rw [mapUpd_ne _ _ _ _ hpq]
        exact h.queue_count w i hw
  · intro w i pid hw hp
    rw [hwi] at hw
    rw [hwq]
    by_cases hq : w = wid
    · rw [hq, mapUpd_self] at hw
      cases hw
      have hp' : pid ≠ item.assignee_id := by simpa using hp
      rw [mapUpd_ne _ _ _ _ hp', hq]
      exact h.queue_other wid item pid hitem hp'
    · rw [mapUpd_ne _ _ _ _ hq] at hw
      by_cases hpq : pid = item.assignee_id
      · rw [hpq, mapUpd_self, count_filter_ne _ _ _ hq]
        exact h.queue_other w i _ hw (by rw [← hpq]; exact hp)
      · rw [mapUpd_ne _ _ _ _ hpq]
        exact h.queue_other w i pid hw hp
  · intro aid a ha hpa
    rw [hap] at ha
    rw [hwi]
    obtain ⟨i0, h1, h2, h3⟩ := h.pending_approval aid a ha hpa
    by_cases hq : a.work_item_id = wid
    · rw [hq, hitem] at h1
      cases h1
      refine ⟨{ item with status := WorkItemStatus.cancelled, updated_at := st.clock },
        ?_, h2, Or.inr rfl⟩
      rw [hq, mapUpd_self]
    · exact ⟨i0, by rw [mapUpd_ne _ _ _ _ hq]; exact h1, h2, h3⟩
  · intro aid a bid b ha hb hpa hpb hww
    rw [hap] at ha hb
    exact h.pending_unique aid a bid b ha hb hpa hpb hww

theorem inv_cancel (st : ManagerState) (wid canceller : Nat) (h : Inv st) :
    Inv (cancel_work st wid canceller).2 := by
  unfold cancel_work
  split
  · exact h
  next item heq =>
    split
    · exact h
    · split
      · exact h
      next item' hcanc =>
        unfold WorkItem.cancel at hcanc
        cases hterm : item.status.is_terminal with
        | true =>
          rw [hterm] at hcanc
          simp at hcanc
        | false =>
          rw [hterm] at hcanc
          simp only [Bool.false_eq_true, if_false] at hcanc
          cases hcanc
          exact inv_cancel_success st _ wid item heq rfl rfl rfl rfl h

theorem inv_claim_success (st st' : ManagerState) (wid claimer : Nat) (item : WorkItem)
    (hitem : st.work_items wid = some item)
    (hpend0 : item.status = WorkItemStatus.pending)
    (hwi : st'.work_items = mapUpd st.work_items wid
      (some { item with assignee_id := claimer, updated_at := st.clock }))
    (hap : st'.approvals = st.approvals)
    (hwq : st'.work_queues =
      mapUpd (mapUpd st.work_queues item.assignee_id
          ((st.work_queues item.assignee_id).filter (fun id => id ≠ wid))) claimer
        ((mapUpd st.work_queues item.assignee_id
          ((st.work_queues item.assignee_id).filter (fun id => id ≠ wid))) claimer
          ++ [wid]))
    (hni : st'.nextId = st.nextId)
    (h : Inv st) : Inv st' := by
  have count_other : ∀ pid w, w ≠ wid →
      (st'.work_queues pid).count w = (st.work_queues pid).count w := by
    intro pid w hw
    rw [hwq]
    by_cases hc : pid = claimer
    · rw [hc, mapUpd_self, count_snoc_ne _ _ _ hw]
      by_cases ho : claimer = item.assignee_id
      · rw [ho, mapUpd_self, count_filter_ne _ _ _ hw]
      · rw [mapUpd_ne _ _ _ _ ho]
    · rw [mapUpd_ne _ _ _ _ hc]
      by_cases ho : pid = item.assignee_id
      · rw [ho, mapUpd_self, count_filter_ne _ _ _ hw]
      · rw [mapUpd_ne _ _ _ _ ho]
  have count_wid : ∀ pid, (st'.work_queues pid).count wid =
      (if pid = claimer then 1 else 0) := by
    intro pid
    rw [hwq]
    by_cases hc : pid = claimer
    · rw [hc, mapUpd_self, count_snoc_self, if_pos rfl]
      by_cases ho : claimer = item.assignee_id
      · rw [ho, mapUpd_self, count_filter_self]
      · rw [mapUpd_ne _ _ _ _ ho, h.queue_other wid item claimer hitem ho]
    · rw [mapUpd_ne _ _ _ _ hc, if_neg hc]
      by_cases ho : pid = item.assignee_id
      · rw [ho, mapUpd_self, count_filter_self]
      · rw [mapUpd_ne _ _ _ _ ho]
        exact h.queue_other wid item pid hitem ho
  constructor
  · intro w i hw
    rw [hwi] at hw
    by_cases hq : w = wid
    · rw [hq, mapUpd_self] at hw
      cases hw
      rw [hq]
      exact h.key_id wid item hitem
    · rw [mapUpd_ne _ _ _ _ hq] at hw
      exact h.key_id w i hw
  · intro k hk
    rw [hni] at hk
    rw [hwi]
    have hkne : k ≠ wid := by
      intro he
      have := lt_nextId_of_item h hitem
      omega
    rw [mapUpd_ne _ _ _ _ hkne]
    exact h.fresh_item k hk
  · intro k hk
    rw [hni] at hk
    rw [hap]
    exact h.fresh_approval k hk
  · intro pid w hw
    rw [hwi] at hw
    by_cases hq : w = wid
    · rw [hq, mapUpd_self] at hw
      exact Option.noConfusion hw
    · rw [mapUpd_ne _ _ _ _ hq] at hw
      rw [count_other pid w hq]
      exact h.queue_known pid w hw
  · intro w i hw
    rw [hwi] at hw
    by_cases hq : w = wid
    · rw [hq, mapUpd_self] at hw
      cases hw
      rw [hq]
      show (st'.work_queues claimer).count wid = _
      rw [count_wid claimer, if_pos rfl, hpend0]
      rfl
    · rw [mapUpd_ne _ _ _ _ hq] at hw
      rw [count_other _ w hq]
      exact h.queue_count w i hw
  · intro w i pid hw hp
    rw [hwi] at hw
    by_cases hq : w = wid
    · rw [hq, mapUpd_self] at hw
      cases hw
      have hp' : pid ≠ claimer := by simpa using hp
      rw [hq, count_wid pid, if_neg hp']
    · rw [mapUpd_ne _ _ _ _ hq] at hw
      rw [count_other _ w hq]
      exact h.queue_other w i pid hw hp
  · intro aid a ha hpa
    rw [hap] at ha
    rw [hwi]
    obtain ⟨i0, h1, h2, h3⟩ := h.pending_approval aid a ha hpa
    by_cases hq : a.work_item_id = wid
    · exfalso
      rw [hq, hitem] at h1
      cases h1
      rcases h3 with h3 | h3 <;> rw [hpend0] at h3 <;> exact WorkItemStatus.noConfusion h3
    · exact ⟨i0, by rw [mapUpd_ne _ _ _ _ hq]; exact h1, h2, h3⟩
  · intro aid a bid b ha hb hpa hpb hww
    rw [hap] at ha hb
    exact h.pending_unique aid a bid b ha hb hpa hpb hww

theorem inv_claim (st : ManagerState) (wid claimer : Nat) (h : Inv st) :
    Inv (claim_work st wid claimer).2 := by
  unfold claim_work
  split
  · exact h
  next claimer_p heq0 =>
    split
    · exact h
    · split
      · exact h
      next item heq =>
        split
        · exact h
        next hpend =>
          push_neg at hpend
          exact inv_claim_success st _ wid claimer item heq hpend rfl rfl rfl rfl h

/-- Resolving an approval (without touching anything else) preserves the
invariant; this is the state the source leaves behind when the work item
referenced by a freshly resolved approval is missing. -/
theorem inv_resolve_approval (st st' : ManagerState) (aid : Nat)
    (approval approval' : ApprovalRequest)
    (ha0 : st.approvals aid = some approval)
    (hnp : approval'.status ≠ ApprovalStatus.pending)
    (hwi : st'.work_items = st.work_items)
    (hap : st'.approvals = mapUpd st.approvals aid (some approval'))
    (hwq : st'.work_queues = st.work_queues)
    (hni : st'.nextId = st.nextId)
    (h : Inv st) : Inv st' := by
  constructor
  · intro w i hw
    rw [hwi] at hw
    exact h.key_id w i hw
  · intro k hk
    rw [hni] at hk
    rw [hwi]
    exact h.fresh_item k hk
  · intro k hk
    rw [hni] at hk
    rw [hap]
    have hkne : k ≠ aid := by
      intro he
      have := lt_nextId_of_approval h ha0
      omega
    rw [mapUpd_ne _ _ _ _ hkne]
    exact h.fresh_approval k hk
  · intro pid w hw
    rw [hwi] at hw
    rw [hwq]
    exact h.queue_known pid w hw
  · intro w i hw
    rw [hwi] at hw
    rw [hwq]
    exact h.queue_count w i hw
  · intro w i pid hw hp
    rw [hwi] at hw
    rw [hwq]
    exact h.queue_other w i pid hw hp
  · intro k a ha hpa
    rw [hap] at ha
    rw [hwi]
    by_cases hq : k = aid
    · rw [hq, mapUpd_self] at ha
      cases ha
      exact absurd hpa hnp
    · rw [mapUpd_ne _ _ _ _ hq] at ha
      exact h.pending_approval k a ha hpa
  · intro k a k2 b ha hb hpa hpb hww
    rw [hap] at ha hb
    by_cases hqa : k = aid
    · rw [hqa, mapUpd_self] at ha
      cases ha
      exact absurd hpa hnp
    · by_cases hqb : k2 = aid
      · rw [hqb, mapUpd_self] at hb
        cases hb
        exact absurd hpb hnp
      · rw [mapUpd_ne _ _ _ _ hqa] at ha
        rw [mapUpd_ne _ _ _ _ hqb] at hb
        exact h.pending_unique k a k2 b ha hb hpa hpb hww

theorem inv_approve_success (st st' : ManagerState) (aid : Nat)
    (approval : ApprovalRequest) (item : WorkItem)
    (ha0 : st.approvals aid = some approval)
    (hpa0 : approval.status = ApprovalStatus.pending)
    (hitem : st.work_items approval.work_item_id = some item)
    (hwi : st'.work_items = mapUpd st.work_items approval.work_item_id
      (some { item with status := WorkItemStatus.approved, updated_at := st.clock }))
    (hap : ∃ approval', approval'.status ≠ ApprovalStatus.pending ∧
      st'.approvals = mapUpd st.approvals aid (some approval'))
    (hwq : st'.work_queues = st.work_queues)
    (hni : st'.nextId = st.nextId)
    (h : Inv st) : Inv st' := by
  obtain ⟨approval', hnp, hap⟩ := hap
  obtain ⟨i0, hi1, hi2, hi3⟩ := h.pending_approval aid approval ha0 hpa0
  rw [hitem] at hi1
  cases hi1
  have hcount0 : (st.work_queues item.assignee_id).count approval.work_item_id = 0 := by
    have := h.queue_count approval.work_item_id item hitem
    rcases hi3 with h3 | h3 <;> rw [h3] at this <;> simpa using this
  constructor
  · intro w i hw
    rw [hwi] at hw
    by_cases hq : w = approval.work_item_id
    · rw [hq, mapUpd_self] at hw
      cases hw
      rw [hq]
      exact h.key_id _ item hitem
    · rw [mapUpd_ne _ _ _ _ hq] at hw
      exact h.key_id w i hw
  · intro k hk
    rw [hni] at hk
    rw [hwi]
    have hkne : k ≠ approval.work_item_id := by
      intro he
      have := lt_nextId_of_item h hitem
      omega
    rw [mapUpd_ne _ _ _ _ hkne]
    exact h.fresh_item k hk
  · intro k hk
    rw [hni] at hk
    rw [hap]
    have hkne : k ≠ aid := by
      intro he
      have := lt_nextId_of_approval h ha0
      omega
    rw [mapUpd_ne _ _ _ _ hkne]
    exact h.fresh_approval k hk
  · intro pid w hw
    rw [hwi] at hw
    rw [hwq]
    by_cases hq : w = approval.work_item_id
    · rw [hq, mapUpd_self] at hw
      exact Option.noConfusion hw
    · rw [mapUpd_ne _ _ _ _ hq] at hw
      exact h.queue_known pid w hw
  · intro w i hw
    rw [hwi] at hw
    rw [hwq]
    by_cases hq : w = approval.work_item_id
    · rw [hq, mapUpd_self] at hw
      cases hw
      rw [hq]
      show (st.work_queues item.assignee_id).count approval.work_item_id = _
      rw [hcount0]
      rfl
    · rw [mapUpd_ne _ _ _ _ hq] at hw
      exact h.queue_count w i hw
  · intro w i pid hw hp
    rw [hwi] at hw
    rw [hwq]
    by_cases hq : w = approval.work_item_id
    · rw [hq, mapUpd_self] at hw
      cases hw
      rw [hq]
      exact h.queue_other _ item pid hitem (by simpa using hp)
    · rw [mapUpd_ne _ _ _ _ hq] at hw
      exact h.queue_other w i pid hw hp
  · intro k a ha hpa
    rw [hap] at ha
    rw [hwi]
    by_cases hq : k = aid
    · rw [hq, mapUpd_self] at ha
      cases ha
      exact absurd hpa hnp
    · rw [mapUpd_ne _ _ _ _ hq] at ha
      obtain ⟨i0, h1, h2, h3⟩ := h.pending_approval k a ha hpa
      have hne : a.work_item_id ≠ approval.work_item_id := by
        intro he
        exact hq (h.pending_unique k a aid approval ha ha0 hpa hpa0 he)
      exact ⟨i0, by rw [mapUpd_ne _ _ _ _ hne]; exact h1, h2, h3⟩
  · intro k a k2 b ha hb hpa hpb hww
    rw [hap] at ha hb
    by_cases hqa : k = aid
    · rw [hqa, mapUpd_self] at ha
      cases ha
      exact absurd hpa hnp
    · by_cases hqb : k2 = aid
      · rw [hqb, mapUpd_self] at hb
        cases hb
        exact absurd hpb hnp
      · rw [mapUpd_ne _ _ _ _ hqa] at ha
        rw [mapUpd_ne _ _ _ _ hqb] at hb
        exact h.pending_unique k a k2 b ha hb hpa hpb hww

theorem inv_approve (st : ManagerState) (aid approver : Nat) (feedback : Option String)
    (h : Inv st) : Inv (approve st aid approver feedback).2 := by
  unfold approve
  split
  · exact h
  next approver_p heq0 =>
    split
    · exact h
    · split
      · exact h
      next approval ha0 =>
        split
        · exact h
        · split
          · exact h
          next approval' happr =>
            unfold ApprovalRequest.approve at happr
            by_cases hpa : approval.status ≠ ApprovalStatus.pending
            · rw [if_pos hpa] at happr
              exact Except.noConfusion happr
            · rw [if_neg hpa] at happr
              push_neg at hpa
              cases happr
              dsimp only
              split
              next hmiss =>
                exact inv_resolve_approval st _ aid approval _ ha0
                  (fun hc => ApprovalStatus.noConfusion hc) rfl rfl rfl rfl h
              next item hitem =>
                exact inv_approve_success st _ aid approval item ha0 hpa hitem rfl
                  ⟨_, fun hc => ApprovalStatus.noConfusion hc, rfl⟩ rfl rfl h

theorem inv_reject_success (st st' : ManagerState) (aid : Nat)
    (approval : ApprovalRequest) (item : WorkItem)
    (ha0 : st.approvals aid = some approval)
    (hpa0 : approval.status = ApprovalStatus.pending)
    (hitem : st.work_items approval.work_item_id = some item)
    (hwi : st'.work_items = mapUpd st.work_items approval.work_item_id
      (some { item with status := WorkItemStatus.rejected, updated_at := st.clock }))
    (hap : ∃ approval', approval'.status ≠ ApprovalStatus.pending ∧
      st'.approvals = mapUpd st.approvals aid (some approval'))
    (hwq : st'.work_queues = mapUpd st.work_queues approval.requester_id
      (st.work_queues approval.requester_id ++ [approval.work_item_id]))
    (hni : st'.nextId = st.nextId)
    (h : Inv st) : Inv st' := by
  obtain ⟨approval', hnp, hap⟩ := hap
  obtain ⟨i0, hi1, hi2, hi3⟩ := h.pending_approval aid approval ha0 hpa0
  rw [hitem] at hi1
  cases hi1
  have hcount0 : (st.work_queues item.assignee_id).count approval.work_item_id = 0 := by
    have := h.queue_count approval.work_item_id item hitem
    rcases hi3 with h3 | h3 <;> rw [h3] at this <;> simpa using this
  constructor
  · intro w i hw
    rw [hwi] at hw
    by_cases hq : w = approval.work_item_id
    · rw [hq, mapUpd_self] at hw
      cases hw
      rw [hq]
      exact h.key_id _ item hitem
    · rw [mapUpd_ne _ _ _ _ hq] at hw
      exact h.key_id w i hw
  · intro k hk
    rw [hni] at hk
    rw [hwi]
    have hkne : k ≠ approval.work_item_id := by
      intro he
      have := lt_nextId_of_item h hitem
      omega
    rw [mapUpd_ne _ _ _ _ hkne]
    exact h.fresh_item k hk
  · intro k hk
    rw [hni] at hk
    rw [hap]
    have hkne : k ≠ aid := by
      intro he
      have := lt_nextId_of_approval h ha0
      omega
    rw [mapUpd_ne _ _ _ _ hkne]
    exact h.fresh_approval k hk
  · intro pid w hw
    rw [hwi] at hw
    rw [hwq]
    by_cases hq : w = approval.work_item_id
    · rw [hq, mapUpd_self] at hw
      exact Option.noConfusion hw
    · rw [mapUpd_ne _ _ _ _ hq] at hw
      by_cases hpq : pid = approval.requester_id
      · rw [hpq, mapUpd_self, count_snoc_ne _ _ _ hq]
        exact h.queue_known _ w hw
      · rw [mapUpd_ne _ _ _ _ hpq]
        exact h.queue_known pid w hw
  · intro w i hw
    rw [hwi] at hw
    rw [hwq]
    by_cases hq : w = approval.work_item_id
    · rw [hq, mapUpd_self] at hw
      cases hw
      rw [hq]
      show ((mapUpd st.work_queues approval.requester_id _) item.assignee_id).count _ = _
      rw [hi2, mapUpd_self, count_snoc_self]
      rw [← hi2, hcount0]
      rfl
    · rw [mapUpd_ne _ _ _ _ hq] at hw
      by_cases hpq : i.assignee_id = approval.requester_id
      · rw [hpq, mapUpd_self, count_snoc_ne _ _ _ hq]
        have := h.queue_count w i hw
        rw [hpq] at this
        exact this
      · rw [mapUpd_ne _ _ _ _ hpq]
        exact h.queue_count w i hw
  · intro w i pid hw hp
    rw [hwi] at hw
    rw [hwq]
    by_cases hq : w = approval.work_item_id
    · rw [hq, mapUpd_self] at hw
      cases hw
      have hp' : pid ≠ item.assignee_id := by simpa using hp
      have hp2 : pid ≠ approval.requester_id := by rw [← hi2]; exact hp'
      rw [mapUpd_ne _ _ _ _ hp2, hq]
      exact h.queue_other _ item pid hitem hp'
    · rw [mapUpd_ne _ _ _ _ hq] at hw
      by_cases hpq : pid = approval.requester_id
      · rw [hpq, mapUpd_self, count_snoc_ne _ _ _ hq]
        exact h.queue_other w i _ hw (by rw [← hpq]; exact hp)
      · rw [mapUpd_ne _ _ _ _ hpq]
        exact h.queue_other w i pid hw hp
  · intro k a ha hpa
    rw [hap] at ha
    rw [hwi]
    by_cases hq : k = aid
    · rw [hq, mapUpd_self] at ha
      cases ha
      exact absurd hpa hnp
    · rw [mapUpd_ne _ _ _ _ hq] at ha
      obtain ⟨i1, h1, h2, h3⟩ := h.pending_approval k a ha hpa
      have hne : a.work_item_id ≠ approval.work_item_id := by
        intro he
        exact hq (h.pending_unique k a aid approval ha ha0 hpa hpa0 he)
      exact ⟨i1, by rw [mapUpd_ne _ _ _ _ hne]; exact h1, h2, h3⟩
  · intro k a k2 b ha hb hpa hpb hww
    rw [hap] at ha hb
    by_cases hqa : k = aid
    · rw [hqa, mapUpd_self] at ha
      cases ha
      exact absurd hpa hnp
    · by_cases hqb : k2 = aid
      · rw [hqb, mapUpd_self] at hb
        cases hb
        exact absurd hpb hnp
      · rw [mapUpd_ne _ _ _ _ hqa] at ha
        rw [mapUpd_ne _ _ _ _ hqb] at hb
        exact h.pending_unique k a k2 b ha hb hpa hpb hww

theorem inv_reject (st : ManagerState) (aid rejecter : Nat) (feedback : String)
    (h : Inv st) : Inv (reject st aid rejecter feedback).2 := by
  unfold reject
  split
  · exact h
  next rejecter_p heq0 =>
    split
    · exact h
    · split
      · exact h
      next approval ha0 =>
        split
        · exact h
        · split
          · exact h
          next approval' hrej =>
            unfold ApprovalRequest.reject at hrej
            by_cases hpa : approval.status ≠ ApprovalStatus.pending
            · rw [if_pos hpa] at hrej
              exact Except.noConfusion hrej
            · rw [if_neg hpa] at hrej
              push_neg at hpa
              cases hrej
              dsimp only
              split
              next hmiss =>
                exact inv_resolve_approval st _ aid approval _ ha0
                  (fun hc => ApprovalStatus.noConfusion hc) rfl rfl rfl rfl h
              next item hitem =>
                exact inv_reject_success st _ aid approval item ha0 hpa hitem rfl
                  ⟨_, fun hc => ApprovalStatus.noConfusion hc, rfl⟩ rfl rfl h

theorem inv_init : Inv initManager := by
  constructor
  · intro wid item hw
    exact Option.noConfusion hw
  · intro k _
    rfl
  · intro k _
    rfl
  · intro pid wid _
    rfl
  · intro wid item hw
    exact Option.noConfusion hw
  · intro wid item pid hw _
    exact Option.noConfusion hw
  · intro aid a ha _
    exact Option.noConfusion ha
  · intro aid a bid b ha _ _ _ _
    exact Option.noConfusion ha

theorem step_inv (st : ManagerState) (op : Op) (h : Inv st) : Inv (step st op) := by
  cases op with
  | register p => exact inv_register st p h
  | registerWith p caps => exact inv_registerWith st p caps h
  | unregister id => exact inv_unregister st id h
  | updateCaps pid caps => exact inv_updateCaps st pid caps h
  | setAccepting pid b => exact inv_setAccepting st pid b h
  | delegateOp j d del asg pr ra ap => exact inv_delegate st j d del asg pr ra ap h
  | acceptOp wid a => exact inv_accept st wid a h
  | declineOp wid d => exact inv_decline st wid d h
  | submitOp wid sb r => exact inv_submit st wid sb r h
  | approveOp aid ap f => exact inv_approve st aid ap f h
  | rejectOp aid rj f => exact inv_reject st aid rj f h
  | cancelOp wid c => exact inv_cancel st wid c h
  | claimOp wid c => exact inv_claim st wid c h

theorem run_inv_aux : ∀ (ops : List Op) (st : ManagerState),
    Inv st → Inv (ops.foldl step st)
  | [], _, h => h
  | op :: ops, st, h => run_inv_aux ops (step st op) (step_inv st op h)

theorem run_inv (ops : List Op) : Inv (run ops) :=
  run_inv_aux ops initManager inv_init

/--
CLAIM C1 (counterexample).  After Alice delegates to Bob and Bob accepts
via accept_work, the work item has status in_progress and still sits in
Bob's work queue (it occurs there once) — contradicting the claim that an
accepted work item is in no participant's work queue (accept_work never
touches the queue maps).
-/
theorem accepted_item_still_in_queue :
    (run c1Ops).work_items 0 = some c1Item ∧
    c1Item.status = WorkItemStatus.inProgress ∧
    ((run c1Ops).work_queues 11).count 0 = 1 := by
  refine ⟨by decide, by decide, by decide⟩

/--
CLAIM C1 (amended).  After any sequence of engine operations, a work item
appears in its assignee's work queue — exactly once — iff its status is
pending, in_progress or rejected, and it appears in no other participant's
queue; in particular an item accepted via accept_work (status in_progress)
remains in the assignee's queue until it is submitted, declined, cancelled
or claimed away.
-/
theorem work_queue_membership (ops : List Op) (wid : Nat) (item : WorkItem)
    (hw : (run ops).work_items wid = some item) :
    (((run ops).work_queues item.assignee_id).count wid =
      if item.status = WorkItemStatus.pending ∨
         item.status = WorkItemStatus.inProgress ∨
         item.status = WorkItemStatus.rejected then 1 else 0) ∧
    (∀ pid, pid ≠ item.assignee_id → ((run ops).work_queues pid).count wid = 0) := by
  have h := run_inv ops
  constructor
  · have hc := h.queue_count wid item hw
    have : inQueueStatus item.status =
        decide (item.status = WorkItemStatus.pending ∨
          item.status = WorkItemStatus.inProgress ∨
          item.status = WorkItemStatus.rejected) := by
      cases item.status <;> rfl
    rw [this] at hc
    rw [hc]
    by_cases hd : item.status = WorkItemStatus.pending ∨
        item.status = WorkItemStatus.inProgress ∨
        item.status = WorkItemStatus.rejected
    · rw [if_pos hd, decide_eq_true hd]
      rfl
    · rw [if_neg hd, decide_eq_false hd]
      rfl
  · intro pid hp
    exact h.queue_other wid item pid hw hp

/-- Witness for the amended C1 on the concrete c1Ops trace. -/
theorem work_queue_membership_witness :
    ((run c1Ops).work_items 0 = some c1Item) ∧
    ((((run c1Ops).work_queues c1Item.assignee_id).count 0 =
      if c1Item.status = WorkItemStatus.pending ∨
         c1Item.status = WorkItemStatus.inProgress ∨
         c1Item.status = WorkItemStatus.rejected then 1 else 0) ∧
    (∀ pid, pid ≠ c1Item.assignee_id →
      ((run c1Ops).work_queues pid).count 0 = 0)) :=
  ⟨by decide, work_queue_membership c1Ops 0 c1Item (by decide)⟩


/--
CLAIM C10.  unregister_participant removes only the participant's
registration entry (returning it): the work-item map, the approval map,
every work queue and approval queue, and the event log are unchanged —
disconnecting a participant never cancels, reassigns or removes delegated
work.
-/
theorem unregister_frame (st : ManagerState) (id : Nat) :
    (unregister_participant st id).1 = st.participants id ∧
    (unregister_participant st id).2.participants = mapUpd st.participants id none ∧
    (unregister_participant st id).2.work_items = st.work_items ∧
    (unregister_participant st id).2.approvals = st.approvals ∧
    (unregister_participant st id).2.work_queues = st.work_queues ∧
    (unregister_participant st id).2.approval_queues = st.approval_queues ∧
    (unregister_participant st id).2.events = st.events :=
  ⟨rfl, rfl, rfl, rfl, rfl, rfl, rfl⟩

/--
CLAIM C6.  Preconditions of delegate, each failing with its own error
kind: unknown delegator → participantNotFound delegator; delegator
without the delegate capability (admin override included, via
CapabilitySet.has) → insufficientCapability; unknown assignee →
participantNotFound assignee; assignee with can_receive_work false →
notAcceptingWork; in every failure the state is untouched.  When all
hold, a work item with status pending is created under the fresh id,
appended to the assignee's queue, and WorkDelegated is broadcast.
-/
theorem delegate_spec (st : ManagerState) (j : Nat) (d : String)
    (del asg : Nat) (pr : Option WorkPriority) (ra : Bool) (ap : Option Nat) :
    (st.participants del = none →
      (delegate st j d del asg pr ra ap).1 =
        Except.error (DelegationError.participantNotFound del) ∧
      (delegate st j d del asg pr ra ap).2 = st) ∧
    (∀ dl, st.participants del = some dl → dl.can_delegate = false →
      (delegate st j d del asg pr ra ap).1 =
        Except.error (DelegationError.insufficientCapability del Capability.delegate) ∧
      (delegate st j d del asg pr ra ap).2 = st) ∧
    (∀ dl, st.participants del = some dl → dl.can_delegate = true →
      st.participants asg = none →
      (delegate st j d del asg pr ra ap).1 =
        Except.error (DelegationError.participantNotFound asg) ∧
      (delegate st j d del asg pr ra ap).2 = st) ∧
    (∀ dl a, st.participants del = some dl → dl.can_delegate = true →
      st.participants asg = some a → a.can_receive_work = false →
      (delegate st j d del asg pr ra ap).1 =
        Except.error (DelegationError.notAcceptingWork asg) ∧
      (delegate st j d del asg pr ra ap).2 = st) ∧
    (∀ dl a, st.participants del = some dl → dl.can_delegate = true →
      st.participants asg = some a → a.can_receive_work = true →
      ∃ item, (delegate st j d del asg pr ra ap).1 = Except.ok item ∧
        item.id = st.nextId ∧
        item.status = WorkItemStatus.pending ∧
        item.delegator_id = del ∧
        item.assignee_id = asg ∧
        (delegate st j d del asg pr ra ap).2.work_items st.nextId = some item ∧
        (delegate st j d del asg pr ra ap).2.work_queues asg =
          st.work_queues asg ++ [st.nextId] ∧
        (delegate st j d del asg pr ra ap).2.events =
          st.events ++ [DelegationEvent.workDelegated st.nextId del asg d]) := by
  refine ⟨?_, ?_, ?_, ?_, ?_⟩
  · intro h
    simp [delegate, h]
  · intro dl h hcd
    simp [delegate, h, hcd]
  · intro dl h hcd h2
    simp [delegate, h, hcd, h2]
  · intro dl a h hcd h2 hcr
    simp [delegate, h, hcd, h2, hcr]
  · intro dl a h hcd h2 hcr
    obtain ⟨hid, hstat, hasg, hdel, -, -, -, -⟩ :=
      mkDelegatedItem_fields st.nextId j d del asg st.clock pr ra ap
    have hD : delegate st j d del asg pr ra ap =
        (Except.ok (mkDelegatedItem st.nextId j d del asg st.clock pr ra ap),
         { st with
           work_items := mapUpd st.work_items
             (mkDelegatedItem st.nextId j d del asg st.clock pr ra ap).id
             (some (mkDelegatedItem st.nextId j d del asg st.clock pr ra ap))
           work_queues := mapUpd st.work_queues asg
             (st.work_queues asg ++
               [(mkDelegatedItem st.nextId j d del asg st.clock pr ra ap).id])
           events := st.events ++ [DelegationEvent.workDelegated
             (mkDelegatedItem st.nextId j d del asg st.clock pr ra ap).id del asg d]
           nextId := st.nextId + 1
           clock := st.clock + 1 }) := by
      simp [delegate, h, hcd, h2, hcr]
    refine ⟨mkDelegatedItem st.nextId j d del asg st.clock pr ra ap,
      ?_, hid, hstat, hdel, hasg, ?_, ?_, ?_⟩
    · rw [hD]
    · rw [hD]
      show mapUpd st.work_items
        (mkDelegatedItem st.nextId j d del asg st.clock pr ra ap).id
        (some (mkDelegatedItem st.nextId j d del asg st.clock pr ra ap)) st.nextId = _
      rw [hid]
      exact mapUpd_self st.work_items st.nextId _
    · rw [hD]
      show mapUpd st.work_queues asg
        (st.work_queues asg ++
          [(mkDelegatedItem st.nextId j d del asg st.clock pr ra ap).id]) asg = _
      rw [mapUpd_self, hid]
    · rw [hD]
      show st.events ++ [DelegationEvent.workDelegated
        (mkDelegatedItem st.nextId j d del asg st.clock pr ra ap).id del asg d] = _
      rw [hid]

/--
CLAIM C7.  Effect of reject on a pending approval whose designated
approver has the approve capability and whose work item awaits approval:
the result is ok; the approval becomes rejected (with the feedback and a
resolution time); the work item becomes rejected; the item sits in the
original assignee's work queue exactly once (re-appended for rework); the
approval is removed from the rejecter's approval queue; and WorkRejected
is broadcast.
-/
theorem reject_spec (st : ManagerState) (approval_id rejecter_id : Nat)
    (feedback : String) (rj : RegisteredParticipant) (a : ApprovalRequest)
    (item : WorkItem)
    (hinv : Inv st)
    (hrj : st.participants rejecter_id = some rj)
    (hca : rj.can_approve = true)
    (ha : st.approvals approval_id = some a)
    (hpend : a.status = ApprovalStatus.pending)
    (happ : a.approver_id = rejecter_id)
    (hitem : st.work_items a.work_item_id = some item)
    (hstat : item.status = WorkItemStatus.awaitingApproval) :
    (reject st approval_id rejecter_id feedback).1 =
      Except.ok
        ({ a with
           status := ApprovalStatus.rejected
           feedback := some feedback
           resolved_at := some st.clock },
         { item with
           status := WorkItemStatus.rejected
           updated_at := st.clock }) ∧
    (reject st approval_id rejecter_id feedback).2.approvals approval_id =
      some { a with
        status := ApprovalStatus.rejected
        feedback := some feedback
        resolved_at := some st.clock } ∧
    (reject st approval_id rejecter_id feedback).2.work_items a.work_item_id =
      some { item with
        status := WorkItemStatus.rejected
        updated_at := st.clock } ∧
    ((reject st approval_id rejecter_id feedback).2.work_queues
      item.assignee_id).count a.work_item_id = 1 ∧
    ((reject st approval_id rejecter_id feedback).2.approval_queues
      rejecter_id).count approval_id = 0 ∧
    (reject st approval_id rejecter_id feedback).2.events =
      st.events ++ [DelegationEvent.workRejected a.work_item_id rejecter_id feedback] := by
  obtain ⟨item0, h0, hassign, -⟩ := hinv.pending_approval approval_id a ha hpend
  rw [hitem] at h0
  have he := Option.some.inj h0
  subst he
  have hcount := hinv.queue_count a.work_item_id item hitem
  rw [hstat] at hcount
  simp [inQueueStatus] at hcount
  have hR : reject st approval_id rejecter_id feedback =
      (Except.ok
        ({ a with
           status := ApprovalStatus.rejected
           feedback := some feedback
           resolved_at := some st.clock },
         { item with
           status := WorkItemStatus.rejected
           updated_at := st.clock }),
       { st with
         approvals := mapUpd st.approvals approval_id
           (some { a with
             status := ApprovalStatus.rejected
             feedback := some feedback
             resolved_at := some st.clock })
         work_items := mapUpd st.work_items a.work_item_id
           (some { item with
             status := WorkItemStatus.rejected
             updated_at := st.clock })
         work_queues := mapUpd st.work_queues a.requester_id
           (st.work_queues a.requester_id ++ [a.work_item_id])
         approval_queues := mapUpd st.approval_queues rejecter_id
           ((st.approval_queues rejecter_id).filter (fun id => id ≠ approval_id))
         events := st.events ++
           [DelegationEvent.workRejected a.work_item_id rejecter_id feedback]
         clock := st.clock + 1 }) := by
    simp [reject, hrj, hca, ha, happ, ApprovalRequest.reject, hpend, hitem]
  refine ⟨?_, ?_, ?_, ?_, ?_, ?_⟩
  · rw [hR]
  · rw [hR]
    show mapUpd st.approvals approval_id _ approval_id = _
    rw [mapUpd_self]
  · rw [hR]
    show mapUpd st.work_items a.work_item_id _ a.work_item_id = _
    rw [mapUpd_self]
  · rw [hR]
    show (mapUpd st.work_queues a.requester_id
      (st.work_queues a.requester_id ++ [a.work_item_id]) item.assignee_id).count
        a.work_item_id = 1
    rw [hassign, mapUpd_self, count_snoc_self]
    rw [hassign] at hcount
    rw [hcount]
  · rw [hR]
    show (mapUpd st.approval_queues rejecter_id
      ((st.approval_queues rejecter_id).filter (fun id => id ≠ approval_id))
      rejecter_id).count approval_id = 0
    rw [mapUpd_self]
    exact count_filter_self _ _
  · rw [hR]

/-- Witness for reject_spec on the concrete c7Ops trace: Alice rejects
Bob's submitted work. -/
theorem reject_spec_witness :
    ((run c7Ops).participants 10 = some c7Alice ∧
     c7Alice.can_approve = true ∧
     (run c7Ops).approvals 1 = some c7Approval ∧
     c7Approval.status = ApprovalStatus.pending ∧
     (run c7Ops).work_items 0 = some c7Item ∧
     c7Item.status = WorkItemStatus.awaitingApproval) ∧
    ((reject (run c7Ops) 1 10 "needs work").1 =
      Except.ok
        ({ c7Approval with
           status := ApprovalStatus.rejected
           feedback := some "needs work"
           resolved_at := some (run c7Ops).clock },
         { c7Item with
           status := WorkItemStatus.rejected
           updated_at := (run c7Ops).clock }) ∧
    (reject (run c7Ops) 1 10 "needs work").2.approvals 1 =
      some { c7Approval with
        status := ApprovalStatus.rejected
        feedback := some "needs work"
        resolved_at := some (run c7Ops).clock } ∧
    (reject (run c7Ops) 1 10 "needs work").2.work_items c7Approval.work_item_id =
      some { c7Item with
        status := WorkItemStatus.rejected
        updated_at := (run c7Ops).clock } ∧
    ((reject (run c7Ops) 1 10 "needs work").2.work_queues
      c7Item.assignee_id).count c7Approval.work_item_id = 1 ∧
    ((reject (run c7Ops) 1 10 "needs work").2.approval_queues 10).count 1 = 0 ∧
    (reject (run c7Ops) 1 10 "needs work").2.events =
      (run c7Ops).events ++
        [DelegationEvent.workRejected c7Approval.work_item_id 10 "needs work"]) :=
  ⟨⟨by decide, by decide, by decide, by decide, by decide, by decide⟩,
   reject_spec (run c7Ops) 1 10 "needs work" c7Alice c7Approval c7Item
     (run_inv c7Ops) (by decide) (by decide) (by decide) (by decide)
     (by decide) (by decide) (by decide)⟩

end Deleg

namespace Pipe

theorem writes_complete (events : List (Except String OC.StreamEvent))
    (h : hasErr events = false) :
    ∀ s ∈ submitWrites events, s = Store.BlockStatus.complete := by
  induction events with
  | nil =>
    intro s hs
    cases hs
  | cons e rest ih =>
    simp only [hasErr, List.any_cons, Bool.or_eq_false_iff] at h
    obtain ⟨he, hr⟩ := h
    intro s hs
    simp only [submitWrites, List.mem_append] at hs
    cases hs with
    | inl hl =>
      cases e with
      | error msg => exact Bool.noConfusion he
      | ok ev =>
        cases ev with
        | content t => cases hl
        | done =>
          simp only [eventStatusWrites, List.mem_singleton] at hl
          exact hl
        | error m c => exact Bool.noConfusion he
        | unknown a b => cases hl
    | inr hr2 => exact ih hr s hr2

theorem writes_error (events : List (Except String OC.StreamEvent))
    (h : hasDone events = false) :
    ∀ s ∈ submitWrites events, s = Store.BlockStatus.error := by
  induction events with
  | nil =>
    intro s hs
    cases hs
  | cons e rest ih =>
    simp only [hasDone, List.any_cons, Bool.or_eq_false_iff,
      decide_eq_false_iff_not] at h
    obtain ⟨he, hr⟩ := h
    intro s hs
    simp only [submitWrites, List.mem_append] at hs
    cases hs with
    | inl hl =>
      cases e with
      | error msg =>
        simp only [eventStatusWrites, List.mem_singleton] at hl
        exact hl
      | ok ev =>
        cases ev with
        | content t => cases hl
        | done => exact absurd rfl he
        | error m c =>
          simp only [eventStatusWrites, List.mem_singleton] at hl
          exact hl
        | unknown a b => cases hl
    | inr hr2 => exact ih hr s hr2

theorem statusSeqOk_const (t : Store.BlockStatus) (ht : stepOk t t = true)
    (ws : List Store.BlockStatus) (hall : ∀ s ∈ ws, s = t) :
    statusSeqOk (t :: ws) = true := by
  induction ws with
  | nil => rfl
  | cons w rest ih =>
    have hw : w = t := hall w (List.mem_cons_self w rest)
    show (stepOk t w && statusSeqOk (w :: rest)) = true
    rw [hw, Bool.and_eq_true]
    exact ⟨ht, ih (fun x hx => hall x (List.mem_cons_of_mem w hx))⟩

theorem statusSeqOk_streaming (t : Store.BlockStatus)
    (hst : stepOk Store.BlockStatus.streaming t = true)
    (htt : stepOk t t = true)
    (ws : List Store.BlockStatus) (hall : ∀ s ∈ ws, s = t) :
    statusSeqOk (Store.BlockStatus.streaming :: ws) = true := by
  cases ws with
  | nil => rfl
  | cons w rest =>
    have hw : w = t := hall w (List.mem_cons_self w rest)
    show (stepOk Store.BlockStatus.streaming w && statusSeqOk (w :: rest)) = true
    rw [hw, Bool.and_eq_true]
    exact ⟨hst, statusSeqOk_const t htt rest
      (fun x hx => hall x (List.mem_cons_of_mem w hx))⟩

/--
CLAIM C2 (counterexample).  The event loop of handle_submit continues
after an error: on the upstream stream [Error, Done] the assistant
block's status trace is pending, streaming, error, complete — the Done
event overwrites the terminal error status with complete, so block
status is not monotone and a terminal status is not immutable.
-/
theorem error_then_done_ends_complete :
    submitStatusTrace
        [Except.ok (OC.StreamEvent.error "boom" none),
         Except.ok OC.StreamEvent.done] =
      [Store.BlockStatus.pending, Store.BlockStatus.streaming,
       Store.BlockStatus.error, Store.BlockStatus.complete] ∧
    statusSeqOk
      [Store.BlockStatus.pending, Store.BlockStatus.streaming,
       Store.BlockStatus.error, Store.BlockStatus.complete] = false :=
  ⟨rfl, rfl⟩

/--
CLAIM C2 (amended).  Provided the upstream stream does not contain both a
Done item and an error item (an Error event or a stream-level Err), the
assistant block's status trace in handle_submit follows the monotone path
pending → streaming → {complete | error} with stable repeats, terminal
statuses never being overwritten.  Without that proviso the property is
false: the loop keeps consuming events after writing a terminal status.
-/
theorem submit_status_monotone (events : List (Except String OC.StreamEvent))
    (h : ¬(hasDone events = true ∧ hasErr events = true)) :
    statusSeqOk (submitStatusTrace events) = true := by
  by_cases hd : hasDone events = true
  · have herr : hasErr events = false := by
      cases he : hasErr events
      · rfl
      · exact absurd ⟨hd, he⟩ h
    have hall := writes_complete events herr
    show (stepOk Store.BlockStatus.pending Store.BlockStatus.streaming &&
      statusSeqOk (Store.BlockStatus.streaming :: submitWrites events)) = true
    rw [Bool.and_eq_true]
    exact ⟨rfl, statusSeqOk_streaming Store.BlockStatus.complete rfl rfl
      (submitWrites events) hall⟩
  · have hdf : hasDone events = false := by
      cases hx : hasDone events
      · rfl
      · exact absurd hx hd
    have hall := writes_error events hdf
    show (stepOk Store.BlockStatus.pending Store.BlockStatus.streaming &&
      statusSeqOk (Store.BlockStatus.streaming :: submitWrites events)) = true
    rw [Bool.and_eq_true]
    exact ⟨rfl, statusSeqOk_streaming Store.BlockStatus.error rfl rfl
      (submitWrites events) hall⟩

/-- Witness for the amended C2 on a stream of one content item and Done. -/
theorem submit_status_monotone_witness :
    ¬(hasDone [Except.ok (OC.StreamEvent.content "hi"),
        Except.ok OC.StreamEvent.done] = true ∧
      hasErr [Except.ok (OC.StreamEvent.content "hi"),
        Except.ok OC.StreamEvent.done] = true) ∧
    statusSeqOk (submitStatusTrace
      [Except.ok (OC.StreamEvent.content "hi"),
       Except.ok OC.StreamEvent.done]) = true :=
  ⟨by decide, submit_status_monotone _ (by decide)⟩

end Pipe

namespace OC

/--
CLAIM C5 (counterexample).  parse_event checks only that properties.delta
is present as a string, not that it is non-empty: on a
message.part.updated event whose delta is the empty string and whose
part.content is "hello", it emits Content with empty text instead of
suppressing the event or falling back to part.content.
-/
theorem empty_delta_not_suppressed :
    parse_event "message.part.updated" "d" none (some c5Json) =
      Except.ok (some (StreamEvent.content "")) ∧
    (Except.ok (some (StreamEvent.content "")) :
        Except Store.AppError (Option StreamEvent)) ≠ Except.ok none ∧
    (Except.ok (some (StreamEvent.content "")) :
        Except Store.AppError (Option StreamEvent)) ≠
      Except.ok (some (StreamEvent.content "hello")) :=
  ⟨rfl, by decide, by decide⟩

/--
CLAIM C5 (amended).  For a message.part.updated event (no session
filter): whenever properties.delta is present as a string — empty
included — parse_event yields Content with exactly that string; only
when delta is absent (or not a string) does it consult
properties.part.content, yielding Content with that string when it is a
non-empty string and suppressing the event when it is empty or absent.
-/
theorem parse_event_spec (event_type data : String) (ev props : Json)
    (hty : ((ev.get "type").bind Json.as_str).getD event_type = "message.part.updated")
    (hp : ev.get "properties" = some props) :
    (∀ delta, (props.get "delta").bind Json.as_str = some delta →
      parse_event event_type data none (some ev) =
        Except.ok (some (StreamEvent.content delta))) ∧
    ((props.get "delta").bind Json.as_str = none →
      ∀ content, (props.get "part").bind
          (fun part => (part.get "content").bind Json.as_str) = some content →
        content ≠ "" →
        parse_event event_type data none (some ev) =
          Except.ok (some (StreamEvent.content content))) ∧
    ((props.get "delta").bind Json.as_str = none →
      (props.get "part").bind
          (fun part => (part.get "content").bind Json.as_str) = some "" →
      parse_event event_type data none (some ev) = Except.ok none) ∧
    ((props.get "delta").bind Json.as_str = none →
      (props.get "part").bind
          (fun part => (part.get "content").bind Json.as_str) = none →
      parse_event event_type data none (some ev) = Except.ok none) := by
  refine ⟨?_, ?_, ?_, ?_⟩
  · intro delta hd
    simp [parse_event, hty, hp, hd]
  · intro hd content hc hne
    cases hpart : props.get "part" with
    | none => simp [hpart] at hc
    | some part =>
      simp only [hpart, Option.some_bind] at hc
      simp [parse_event, hty, hp, hd, hpart, hc, hne]
  · intro hd hc
    cases hpart : props.get "part" with
    | none => simp [hpart] at hc
    | some part =>
      simp only [hpart, Option.some_bind] at hc
      simp [parse_event, hty, hp, hd, hpart, hc]
  · intro hd hc
    cases hpart : props.get "part" with
    | none => simp [parse_event, hty, hp, hd, hpart]
    | some part =>
      simp only [hpart, Option.some_bind] at hc
      simp [parse_event, hty, hp, hd, hpart, hc]

/-- Witness for the amended C5 on an event without a delta whose
part.content is "hello". -/
theorem parse_event_spec_witness :
    (((c5NoDeltaJson.get "type").bind Json.as_str).getD "x" =
        "message.part.updated" ∧
     c5NoDeltaJson.get "properties" = some c5NoDeltaProps) ∧
    ((∀ delta, (c5NoDeltaProps.get "delta").bind Json.as_str = some delta →
      parse_event "x" "d" none (some c5NoDeltaJson) =
        Except.ok (some (StreamEvent.content delta))) ∧
    ((c5NoDeltaProps.get "delta").bind Json.as_str = none →
      ∀ content, (c5NoDeltaProps.get "part").bind
          (fun part => (part.get "content").bind Json.as_str) = some content →
        content ≠ "" →
        parse_event "x" "d" none (some c5NoDeltaJson) =
          Except.ok (some (StreamEvent.content content))) ∧
    ((c5NoDeltaProps.get "delta").bind Json.as_str = none →
      (c5NoDeltaProps.get "part").bind
          (fun part => (part.get "content").bind Json.as_str) = some "" →
      parse_event "x" "d" none (some c5NoDeltaJson) = Except.ok none) ∧
    ((c5NoDeltaProps.get "delta").bind Json.as_str = none →
      (c5NoDeltaProps.get "part").bind
          (fun part => (part.get "content").bind Json.as_str) = none →
      parse_event "x" "d" none (some c5NoDeltaJson) = Except.ok none)) :=
  ⟨⟨rfl, rfl⟩, parse_event_spec "x" "d" c5NoDeltaJson c5NoDeltaProps rfl rfl⟩

end OC

namespace SSE

theorem splitLines_nil_of_noNl (cs : List Char) (h : '\n' ∉ cs) :
    splitLines cs = ([], cs) := by
  induction cs with
  | nil => rfl
  | cons c cs ih =>
    rw [List.mem_cons] at h
    push_neg at h
    obtain ⟨h1, h2⟩ := h
    simp [splitLines, ih h2, Ne.symm h1]

theorem noNl_of_splitLines_nil (cs : List Char) (h : (splitLines cs).1 = []) :
    '\n' ∉ cs := by
  induction cs with
  | nil => simp
  | cons c cs ih =>
    by_cases hc : c = '\n'
    · exfalso
      simp [splitLines, hc] at h
    · cases hr : (splitLines cs).1 with
      | cons l ls =>
        exfalso
        simp [splitLines, hc, hr] at h
      | nil =>
        rw [List.mem_cons]
        push_neg
        exact ⟨fun he => hc he.symm, ih hr⟩

theorem splitLines_rest_noNl (cs : List Char) : '\n' ∉ (splitLines cs).2 := by
  induction cs with
  | nil => simp [splitLines]
  | cons c cs ih =>
    by_cases hc : c = '\n'
    · simpa [splitLines, hc] using ih
    · cases hr : (splitLines cs).1 with
      | cons l ls => simpa [splitLines, hc, hr] using ih
      | nil =>
        have h2 := noNl_of_splitLines_nil cs hr
        have hg : '\n' ∉ c :: cs := by
          rw [List.mem_cons]
          push_neg
          exact ⟨fun he => hc he.symm, h2⟩
        simpa [splitLines, hc, hr] using hg

theorem splitLines_append (xs ys : List Char) :
    splitLines (xs ++ ys) =
      ((splitLines xs).1 ++ (splitLines ((splitLines xs).2 ++ ys)).1,
       (splitLines ((splitLines xs).2 ++ ys)).2) := by
  induction xs with
  | nil => simp [splitLines]
  | cons c xs ih =>
    by_cases hc : c = '\n'
    · simp [splitLines, hc, ih]
    · cases hr : (splitLines xs).1 with
      | cons l ls => simp [splitLines, hc, hr, ih]
      | nil => simp [splitLines, hc, hr]

theorem processLines_append (ls1 ls2 : List (List Char)) (et d : String) :
    processLines et d (ls1 ++ ls2) =
      ⟨(processLines et d ls1).emitted ++
        (processLines (processLines et d ls1).event_type
          (processLines et d ls1).data ls2).emitted,
       (processLines (processLines et d ls1).event_type
          (processLines et d ls1).data ls2).event_type,
       (processLines (processLines et d ls1).event_type
          (processLines et d ls1).data ls2).data⟩ := by
  induction ls1 generalizing et d with
  | nil => rfl
  | cons l ls ih =>
    simp only [List.cons_append, processLines, List.append_eq]
    rw [ih]
    simp [List.append_assoc]

theorem feed_append (st : SseState) (xs ys : List Char) :
    feed st (xs ++ ys) =
      ((feed st xs).1 ++ (feed (feed st xs).2 ys).1, (feed (feed st xs).2 ys).2) := by
  simp only [feed]
  rw [← List.append_assoc, splitLines_append, processLines_append]

theorem feed_nil (st : SseState) (h : '\n' ∉ st.buffer) : feed st [] = ([], st) := by
  simp only [feed, List.append_nil]
  rw [splitLines_nil_of_noNl st.buffer h]
  rfl

theorem feedAll_flatten (chunks : List (List Char)) (st : SseState)
    (h : '\n' ∉ st.buffer) :
    feedAll st chunks = feed st chunks.flatten := by
  induction chunks generalizing st with
  | nil =>
    show ([], st) = feed st [].flatten
    rw [show ([] : List (List Char)).flatten = [] from rfl, feed_nil st h]
  | cons c cs ih =>
    rw [show (c :: cs).flatten = c ++ cs.flatten from rfl, feed_append]
    have hb : '\n' ∉ (feed st c).2.buffer := by
      simp only [feed]
      exact splitLines_rest_noNl _
    rw [← ih (feed st c).2 hb]
    rfl

/--
CLAIM C8 (counterexample).  parse_sse_stream converts each raw byte
chunk with String::from_utf8_lossy separately, so a chunk boundary in
the middle of the two-byte UTF-8 character é turns both halves into
replacement characters: the byte-identical payload data:"é" plus blank
line, split between 0xC3 and 0xA9, dispatches a different event (its
data field holds two U+FFFD instead of é) than the unsplit payload —
the emitted event sequence is not chunking-invariant at the byte level.
-/
theorem sse_byte_chunking_not_invariant :
    c8Chunk1 ++ c8Chunk2 = c8Bytes ∧
    (feedAllBytes initSse [c8Chunk1, c8Chunk2]).1 ≠
      (feedAllBytes initSse [c8Bytes]).1 ∧
    (feedAllBytes initSse [c8Bytes]).1 = [("", "\"é\"")] :=
  ⟨rfl, by decide, by decide⟩

/--
CLAIM C8 (amended).  At the character level the stream parser is
chunking-invariant: for every payload and every way of cutting it into
character chunks (equivalently, every byte chunking that respects UTF-8
character boundaries — mid-line and between CR and LF included), feeding
the chunks yields exactly the dispatch sequence of feeding the payload
whole.  At the raw byte level the invariance fails, because each chunk
passes through from_utf8_lossy on its own.
-/
theorem sse_char_chunking_invariant (payload : List Char)
    (chunks : List (List Char)) (h : chunks.flatten = payload) :
    (feedAll initSse chunks).1 = (feed initSse payload).1 := by
  subst h
  rw [feedAll_flatten chunks initSse (by simp [initSse])]

/-- Witness for the amended C8: a payload of one event cut between the
CR-free lines, one cut falling right after the first newline. -/
theorem sse_char_chunking_invariant_witness :
    ([("data:x\n".toList), ("\n".toList)] : List (List Char)).flatten =
      "data:x\n\n".toList ∧
    (feedAll initSse [("data:x\n".toList), ("\n".toList)]).1 =
      (feed initSse "data:x\n\n".toList).1 :=
  ⟨by decide,
   sse_char_chunking_invariant "data:x\n\n".toList
     [("data:x\n".toList), ("\n".toList)] (by decide)⟩

end SSE
